import Mathlib

/-!
PinRollbackTool: speculation / rollback state machine.

A shallow embedding of `src/PinRollbackTool.cpp`.  The global variables of the
tool become the fields of `State`; every analysis routine becomes a function
from the state before the call to the state after it, paired with a `Control`
value saying whether the routine returned to its caller or left through
`PIN_ExecuteAt`.  The text written to `*out` is kept as a list of stream
tokens in emission order.
-/

namespace PinRollbackTool

/-! ## Machine integers -/

/-- The `ADDRINT` type of Pin: an unsigned 64-bit address, kept as a natural number. -/
abbrev ADDRINT := Nat

/-- The `UINT` type of Pin: an unsigned 32-bit integer, kept as a natural number. -/
abbrev UINT := Nat

/-- Number of values of a `UINT` (2^32). -/
def UINT_MOD : Nat := 2 ^ 32

/-- Number of values of an `ADDRINT` (2^64). -/
def ADDRINT_MOD : Nat := 2 ^ 64

/-- The C++ expression `a - b` on two `ADDRINT` values (wraps modulo 2^64). -/
def ADDRINT_sub (a b : ADDRINT) : ADDRINT :=
  (a % ADDRINT_MOD + (ADDRINT_MOD - b % ADDRINT_MOD)) % ADDRINT_MOD

/-- The C++ expression `n++` on a `UINT` (wraps modulo 2^32). -/
def UINT_incr (n : UINT) : UINT := (n + 1) % UINT_MOD

/-! ## Register contexts (the instrumentation engine's `CONTEXT` API) -/

/-- Register names: the instruction pointer and the other registers. -/
inductive REG where
  | REG_INST_PTR : REG
  | REG_OTHER : Nat → REG
deriving DecidableEq, Repr

/-- Modelled from the spec: the `CONTEXT` type of Pin is declared in `pin.H`, which
is not part of the sources.  The spec describes it as a snapshot of all
registers needed to resume execution, at minimum the instruction pointer: here
the instruction pointer and the list of the values of the other registers. -/
structure CONTEXT where
  inst_ptr : ADDRINT
  others : List ADDRINT
deriving DecidableEq, Repr

/-- Modelled from the spec: `PIN_GetContextReg` of `pin.H` (read access to a
register of a context). -/
def PIN_GetContextReg (ctxt : CONTEXT) : REG → ADDRINT
  | .REG_INST_PTR => ctxt.inst_ptr
  | .REG_OTHER i => ctxt.others.getD i 0

/-- Modelled from the spec: `PIN_SetContextReg` of `pin.H` (write access to a
register of a context); the other registers keep their values. -/
def PIN_SetContextReg (ctxt : CONTEXT) (r : REG) (v : ADDRINT) : CONTEXT :=
  match r with
  | .REG_INST_PTR => { ctxt with inst_ptr := v }
  | .REG_OTHER i => { ctxt with others := ctxt.others.set i v }

/-- Modelled from the spec: `PIN_SaveContext(from, to)` of `pin.H` captures a
deep snapshot of `from` into the separate location `to`; the function gives
the new content of `to`. -/
def PIN_SaveContext (ctxtFrom : CONTEXT) : CONTEXT := ctxtFrom

/-! ## Output stream -/

/-- One item inserted into `*out` with `<<`. -/
inductive Tok where
  | str : String → Tok
  | hex : Tok
  | num : Nat → Tok
  | endl : Tok
deriving DecidableEq, Repr

/-! ## Global state and control -/

/-- The global variables of the tool (lines 12-17); `out` is the text written
to the stream so far. -/
structure State where
  out : List Tok
  first_instr_addr : ADDRINT
  executing_on_wrong_path : Bool
  wrong_path_resolution_count : UINT
  wrong_path_instructions_executed : UINT
  rollback_ctxt : CONTEXT
deriving DecidableEq, Repr

/-- How an analysis routine ends: it returns to its caller, or it calls
`PIN_ExecuteAt` on a context, which transfers control there and does not
return. -/
inductive Control where
  | returned : Control
  | executeAt : CONTEXT → Control
deriving DecidableEq, Repr

/-- Append tokens to the stream. -/
def emit (s : State) (ts : List Tok) : State :=
  { s with out := s.out ++ ts }

/-! ## Analysis routines -/

/-- Routine `CheckIfOnWrongPath` (lines 44-50). -/
def CheckIfOnWrongPath (s : State) : State :=
  if s.executing_on_wrong_path then
    { s with wrong_path_instructions_executed := UINT_incr s.wrong_path_instructions_executed }
  else
    { s with wrong_path_instructions_executed := 0 }

/-- The three lines written by `Rollback` (lines 63-65).  The rule is the
source's literal of 35 characters `=`, with two of them written as the escape
`\x3d`. -/
def rollbackMsg (rollback_addr first : ADDRINT) : List Tok :=
  [.str "===============\x3d===============\x3d===", .endl,
   .str "Rolling back to ", .hex, .num rollback_addr, .str "(",
     .num (ADDRINT_sub rollback_addr first), .str ")", .endl,
   .str "===============\x3d===============\x3d===", .endl]

/-- Routine `Rollback` (lines 55-70); `PIN_ExecuteAt` ends the routine, so it is
the control value of the last branch. -/
def Rollback (s : State) : State × Control :=
  if !s.executing_on_wrong_path then
    (s, .returned)
  else if s.wrong_path_instructions_executed ≤ s.wrong_path_resolution_count then
    (s, .returned)
  else
    let rollback_addr := PIN_GetContextReg s.rollback_ctxt .REG_INST_PTR
    let s := emit s (rollbackMsg rollback_addr s.first_instr_addr)
    let s := { s with wrong_path_instructions_executed := 0 }
    let s := { s with executing_on_wrong_path := false }
    (s, .executeAt s.rollback_ctxt)

/-- The annotation written by `RecordInstrAddr` on the wrong path (line 84). -/
def wrongPathMsg (n : UINT) : List Tok :=
  [.str "[ON WRONG PATH, ", .num n, .str " wrong instructions executed] "]

/-- The line written by `RecordInstrAddr` for every instruction (line 85). -/
def executingMsg (addr first : ADDRINT) : List Tok :=
  [.str "Executing instruction at ", .hex, .num addr, .str "(", .hex,
     .num (ADDRINT_sub addr first), .str ")", .endl]

/-- The part of `RecordInstrAddr` after the call of `Rollback` has returned
(lines 81-85). -/
def RecordInstrAddr_tail (addr : ADDRINT) (s : State) : State :=
  let s := if s.first_instr_addr = 0 then { s with first_instr_addr := addr } else s
  let s := if s.executing_on_wrong_path then
      emit s (wrongPathMsg s.wrong_path_instructions_executed) else s
  emit s (executingMsg addr s.first_instr_addr)

/-- Routine `RecordInstrAddr` (lines 76-86): when the call of `Rollback` leaves
through `PIN_ExecuteAt`, nothing after it runs. -/
def RecordInstrAddr (addr : ADDRINT) (s : State) : State × Control :=
  let s := CheckIfOnWrongPath s
  match Rollback s with
  | (s, .executeAt c) => (s, .executeAt c)
  | (s, .returned) => (RecordInstrAddr_tail addr s, .returned)

/-- The three lines written by `Redirect` before it leaves (lines 125-127). -/
def redirectMsg (wrong_path_addr first : ADDRINT) : List Tok :=
  [.str "xxxxxxxxxxxxxxxxxxxxxxxxxxxxxxxxxxx", .endl,
   .str "Redirecting to wrong path address ", .hex, .num wrong_path_addr, .str "(",
     .num (ADDRINT_sub wrong_path_addr first), .str ")", .endl,
   .str "xxxxxxxxxxxxxxxxxxxxxxxxxxxxxxxxxxx", .endl]

/-- The part of `Redirect` after the call of `RecordInstrAddr` has returned
(lines 101-128). -/
def Redirect_tail (ctxt : CONTEXT) (taken : Bool) (taken_addr fallthrough_addr : ADDRINT)
    (s : State) : State × Control :=
  let (s, wrong_path_addr, right_path_addr) :=
    if taken then
      (emit s [.str "Taken branch", .endl], fallthrough_addr, taken_addr)
    else
      (emit s [.str "Not taken branch", .endl], taken_addr, fallthrough_addr)
  let ctxt := PIN_SetContextReg ctxt .REG_INST_PTR right_path_addr
  let s := { s with rollback_ctxt := PIN_SaveContext ctxt }
  let s := { s with wrong_path_instructions_executed := 0 }
  let ctxt := PIN_SetContextReg ctxt .REG_INST_PTR wrong_path_addr
  let s := { s with executing_on_wrong_path := true }
  let s := emit s (redirectMsg wrong_path_addr s.first_instr_addr)
  (s, .executeAt ctxt)

/-- Routine `Redirect` (lines 95-129): when the call of `RecordInstrAddr` leaves
through `PIN_ExecuteAt`, nothing after it runs. -/
def Redirect (ctxt : CONTEXT) (taken : Bool) (taken_addr fallthrough_addr : ADDRINT)
    (s : State) : State × Control :=
  let rip := PIN_GetContextReg ctxt .REG_INST_PTR
  match RecordInstrAddr rip s with
  | (s, .executeAt c) => (s, .executeAt c)
  | (s, .returned) => Redirect_tail ctxt taken taken_addr fallthrough_addr s

/-- The globals when `main` hands over to the program (lines 12-17 and
184-195): the threshold is the value `n` of the knob, and `rollback_ctxt` holds
whatever the not yet written global holds, `c0`.  The rule is the source's
literal of 47 characters `=`, with two of them written as the escape `\x3d`. -/
def main (n : UINT) (c0 : CONTEXT) : State :=
  { out := [.str "Branch resolution time set as ", .num n, .str " instructions", .endl,
            .str "===============\x3d===============\x3d===============", .endl,
            .str "PinRollbackTool Started", .endl,
            .str "===============\x3d===============\x3d===============", .endl]
    first_instr_addr := 0
    executing_on_wrong_path := false
    wrong_path_resolution_count := n
    wrong_path_instructions_executed := 0
    rollback_ctxt := c0 }

/-! ## The host loop -/

/-- The instrumentation engine calls `RecordInstrAddr` before each non-branch
instruction (line 151).  `observe addrs s` handles the instructions at `addrs`
in turn and stops at the first one whose handling leaves through
`PIN_ExecuteAt`; the control value tells whether that happened. -/
def observe : List ADDRINT → State → State × Control
  | [], s => (s, .returned)
  | a :: rest, s =>
    match RecordInstrAddr a s with
    | (s, .executeAt c) => (s, .executeAt c)
    | (s, .returned) => observe rest s

/-- One call of a routine of the tool. -/
inductive Step where
  | checkIfOnWrongPath : Step
  | rollback : Step
  | recordInstrAddr : ADDRINT → Step
  | redirect : CONTEXT → Bool → ADDRINT → ADDRINT → Step
deriving DecidableEq, Repr

/-- The globals after one call. -/
def Step.apply : Step → State → State
  | .checkIfOnWrongPath, s => CheckIfOnWrongPath s
  | .rollback, s => (Rollback s).1
  | .recordInstrAddr a, s => (RecordInstrAddr a s).1
  | .redirect c t ta fa, s => (Redirect c t ta fa s).1

/-- The instruction address a call observes, when it observes one:
`RecordInstrAddr` its argument, `Redirect` the instruction pointer of the live
context (lines 98-99). -/
def Step.addr : Step → Option ADDRINT
  | .checkIfOnWrongPath => none
  | .rollback => none
  | .recordInstrAddr a => some a
  | .redirect c _ _ _ => some (PIN_GetContextReg c .REG_INST_PTR)

/-- The globals after a sequence of calls, first call first. -/
def runSteps : List Step → State → State
  | [], s => s
  | st :: rest, s => runSteps rest (st.apply s)

/-- A state is reachable when some sequence of calls leads to it from the
globals `main` leaves behind. -/
def Reachable (s : State) : Prop :=
  ∃ (n : UINT) (c0 : CONTEXT) (steps : List Step), runSteps steps (main n c0) = s

/-- Number of wrong-path annotations (line 84) in a trace. -/
def wrongPathLines (out : List Tok) : Nat :=
  out.count (.str "[ON WRONG PATH, ")

/-- Number of `Executing instruction` lines (line 85) in a trace. -/
def executingLines (out : List Tok) : Nat :=
  out.count (.str "Executing instruction at ")

/-- Number of `Rolling back` messages (line 64) in a trace. -/
def rollbackLines (out : List Tok) : Nat :=
  out.count (.str "Rolling back to ")

/-- The address a branch resolves to (lines 104-115). -/
def right_path_addr (taken : Bool) (taken_addr fallthrough_addr : ADDRINT) : ADDRINT :=
  if taken then taken_addr else fallthrough_addr

/-- The other address of a branch (lines 104-115). -/
def wrong_path_addr (taken : Bool) (taken_addr fallthrough_addr : ADDRINT) : ADDRINT :=
  if taken then fallthrough_addr else taken_addr

/-- Number of `Taken branch` and `Not taken branch` lines (lines 106 and 112)
in a trace. -/
def branchLines (out : List Tok) : Nat :=
  out.count (.str "Taken branch") + out.count (.str "Not taken branch")

/-- Number of `Redirecting` messages (line 126) in a trace. -/
def redirectLines (out : List Tok) : Nat :=
  out.count (.str "Redirecting to wrong path address ")

/-- The calls the instrumentation engine makes, one per executed instruction:
`RecordInstrAddr` and `Redirect` (lines 143 and 151), not the two routines
these call themselves. -/
def Step.isInstr : Step → Bool
  | .checkIfOnWrongPath => false
  | .rollback => false
  | .recordInstrAddr _ => true
  | .redirect _ _ _ _ => true

/-! ## Instrumentation -/

/-- Modelled from the spec: the `INS` type of Pin is declared in `pin.H`, which
is not part of the sources.  At instrumentation time the engine gives the
static properties of the instruction: whether it is control flow and whether
it has a fallthrough (`INS_IsControlFlow`, `INS_HasFallThrough`). -/
structure INS where
  INS_IsControlFlow : Bool
  INS_HasFallThrough : Bool
deriving DecidableEq, Repr

/-- The analysis routines passed to `INS_InsertCall` as its `AFUNPTR` argument
(lines 143 and 151). -/
inductive AFUNPTR where
  | Redirect : AFUNPTR
  | RecordInstrAddr : AFUNPTR
deriving DecidableEq, Repr

/-- Routine `Instruction` (lines 139-152): the analysis routines inserted
before the instruction, one entry per `INS_InsertCall`. -/
def Instruction (ins : INS) : List AFUNPTR :=
  if ins.INS_IsControlFlow && ins.INS_HasFallThrough then
    [.Redirect]
  else
    [.RecordInstrAddr]

/-- Modelled from the spec: the values the engine passes for the `IARG_*`
arguments of lines 144-147 and 151 when the instruction is about to execute. -/
structure IARGS where
  IARG_CONTEXT : CONTEXT
  IARG_BRANCH_TAKEN : Bool
  IARG_BRANCH_TARGET_ADDR : ADDRINT
  IARG_FALLTHROUGH_ADDR : ADDRINT
  IARG_INST_PTR : ADDRINT
deriving DecidableEq, Repr

/-- The call of an inserted routine with the arguments named at its
`INS_InsertCall` (lines 143-148 and 151). -/
def AFUNPTR.call : AFUNPTR → IARGS → State → State × Control
  | .Redirect, a, s =>
    PinRollbackTool.Redirect a.IARG_CONTEXT a.IARG_BRANCH_TAKEN a.IARG_BRANCH_TARGET_ADDR
      a.IARG_FALLTHROUGH_ADDR s
  | .RecordInstrAddr, a, s => PinRollbackTool.RecordInstrAddr a.IARG_INST_PTR s

/-! ## The checkpoint along a run -/

/-- The context stored by the most recent `Redirect` call of a run that got as
far as `PIN_SaveContext` (lines 118-119), starting from `g` (nothing stored:
`none`).  A `Redirect` call gets that far exactly when its call of
`RecordInstrAddr` (line 99) returns. -/
def lastCaptured : List Step → State → Option CONTEXT → Option CONTEXT
  | [], _, g => g
  | st :: rest, s, g =>
    lastCaptured rest (st.apply s)
      (match st with
       | .redirect c t ta fa =>
         if (RecordInstrAddr (PIN_GetContextReg c .REG_INST_PTR) s).2 = .returned then
           some (PIN_SaveContext (PIN_SetContextReg c .REG_INST_PTR (if t then ta else fa)))
         else g
       | _ => g)

/-! ## Reading the reported addresses back from the trace -/

/-- The address and the relative offset reported at the head of a token list:
a number, an opening bracket, possibly `std::hex`, and a second number, as
written by lines 64, 85 and 126. -/
def reportAt : List Tok → Option (ADDRINT × ADDRINT)
  | .num x :: .str t :: .hex :: .num y :: _ => if t = "(" then some (x, y) else none
  | .num x :: .str t :: .num y :: _ => if t = "(" then some (x, y) else none
  | _ => none

/-- All pairs of an address and its relative offset reported in a trace, in
order. -/
def reports : List Tok → List (ADDRINT × ADDRINT)
  | [] => []
  | t :: rest => (reportAt (t :: rest)).toList ++ reports rest

/-- The trace is relative to base address `a`: `first_instr_addr` is `a`, the
trace ends at the end of a line, and every offset reported in it is the
reported address minus `a`. -/
def TraceInv (a : ADDRINT) (s : State) : Prop :=
  s.first_instr_addr = a ∧ (∃ l, s.out = l ++ [.endl]) ∧
    ∀ p ∈ reports s.out, p.2 = ADDRINT_sub p.1 a

/-! ## Concrete states used to exercise the theorems -/

/-- The content of the not yet written global `rollback_ctxt`. -/
def exCtxt0 : CONTEXT := ⟨0, []⟩

/-- The live context at a branch at address 0x1000. -/
def exCtxt : CONTEXT := ⟨0x1000, [7, 8]⟩

/-- The live context at a branch at address 0x1004, the fallthrough of the
first one. -/
def exCtxt2 : CONTEXT := ⟨0x1004, [7, 9]⟩

/-- The globals after the branch at 0x1000 (taken, target 0x2000, fallthrough
0x1004) has been redirected, with threshold `n`. -/
def exSpec (n : UINT) : State := (Redirect exCtxt true 0x2000 0x1004 (main n exCtxt0)).1

/-- The globals inside the handling of the first wrong-path instruction with
threshold 0, between `CheckIfOnWrongPath` and `Rollback`. -/
def exAtCheck : State := CheckIfOnWrongPath (exSpec 0)

/-- The globals two instructions into the wrong-path excursion that follows
the branch at 0x1000, with threshold 10. -/
def exTwoIn : State := (observe [0x1004, 0x1008] (exSpec 10)).1

/-- The live context at a branch at address 0x100c, reached on the wrong
path. -/
def exCtxt3 : CONTEXT := ⟨0x100c, [1, 2]⟩

/-- A state on the wrong path whose counter has reached the largest threshold
a `UINT` holds, 2^32 - 1: the state after the branch at 0x1000 with the counter
set to the threshold. -/
def exAtMax : State :=
  { exSpec (2 ^ 32 - 1) with wrong_path_instructions_executed := 2 ^ 32 - 1 }

/-! ## Basic facts about the routines -/

/-- The rules of the rollback message and of the banner are 35 and 47
characters `=`. -/
theorem rule_literals :
    "===============\x3d===============\x3d===" = String.mk (List.replicate 35 '=') ∧
    "===============\x3d===============\x3d===============" = String.mk (List.replicate 47 '=') := by
  decide

theorem Rollback_noop (s : State)
    (h : s.executing_on_wrong_path = false ∨
      s.wrong_path_instructions_executed ≤ s.wrong_path_resolution_count) :
    Rollback s = (s, .returned) := by
  unfold Rollback
  rcases h with h | h
  · simp [h]
  · by_cases hf : s.executing_on_wrong_path = true <;> simp [hf, h]

theorem Rollback_fire (s : State) (hf : s.executing_on_wrong_path = true)
    (h : s.wrong_path_resolution_count < s.wrong_path_instructions_executed) :
    Rollback s =
      ({ s with
          out := s.out ++ rollbackMsg (PIN_GetContextReg s.rollback_ctxt .REG_INST_PTR)
            s.first_instr_addr
          wrong_path_instructions_executed := 0
          executing_on_wrong_path := false },
       .executeAt s.rollback_ctxt) := by
  unfold Rollback
  simp [hf, Nat.not_le.mpr h, emit]

theorem Rollback_returned_iff (s : State) :
    (Rollback s).2 = .returned ↔
      (s.executing_on_wrong_path = false ∨
        s.wrong_path_instructions_executed ≤ s.wrong_path_resolution_count) := by
  constructor
  · intro h
    by_contra hc
    push_neg at hc
    have hf : s.executing_on_wrong_path = true := by simpa using hc.1
    rw [Rollback_fire s hf hc.2] at h
    simp at h
  · intro h
    rw [Rollback_noop s h]

theorem CheckIfOnWrongPath_off (s : State) (h : s.executing_on_wrong_path = false) :
    CheckIfOnWrongPath s = { s with wrong_path_instructions_executed := 0 } := by
  simp [CheckIfOnWrongPath, h]

theorem CheckIfOnWrongPath_on (s : State) (h : s.executing_on_wrong_path = true) :
    CheckIfOnWrongPath s =
      { s with wrong_path_instructions_executed := UINT_incr s.wrong_path_instructions_executed } := by
  simp [CheckIfOnWrongPath, h]

theorem CheckIfOnWrongPath_frame (s : State) :
    (CheckIfOnWrongPath s).executing_on_wrong_path = s.executing_on_wrong_path ∧
    (CheckIfOnWrongPath s).rollback_ctxt = s.rollback_ctxt ∧
    (CheckIfOnWrongPath s).first_instr_addr = s.first_instr_addr ∧
    (CheckIfOnWrongPath s).wrong_path_resolution_count = s.wrong_path_resolution_count ∧
    (CheckIfOnWrongPath s).out = s.out := by
  unfold CheckIfOnWrongPath
  split <;> simp

theorem RecordInstrAddr_of_returned (addr : ADDRINT) (s : State)
    (h : (Rollback (CheckIfOnWrongPath s)).2 = .returned) :
    RecordInstrAddr addr s = (RecordInstrAddr_tail addr (CheckIfOnWrongPath s), .returned) := by
  have h2 := Rollback_noop _ ((Rollback_returned_iff _).mp h)
  simp [RecordInstrAddr, h2]

theorem RecordInstrAddr_of_fired (addr : ADDRINT) (s : State)
    (h : (Rollback (CheckIfOnWrongPath s)).2 ≠ .returned) :
    RecordInstrAddr addr s = Rollback (CheckIfOnWrongPath s) := by
  rcases hr : Rollback (CheckIfOnWrongPath s) with ⟨s2, c⟩
  cases c with
  | returned => rw [hr] at h; exact absurd rfl h
  | executeAt c => simp [RecordInstrAddr, hr]

theorem Redirect_of_returned (ctxt : CONTEXT) (taken : Bool) (ta fa : ADDRINT) (s : State)
    (h : (Rollback (CheckIfOnWrongPath s)).2 = .returned) :
    Redirect ctxt taken ta fa s =
      Redirect_tail ctxt taken ta fa
        (RecordInstrAddr_tail (PIN_GetContextReg ctxt .REG_INST_PTR) (CheckIfOnWrongPath s)) := by
  simp [Redirect, RecordInstrAddr_of_returned _ s h]

theorem Redirect_of_fired (ctxt : CONTEXT) (taken : Bool) (ta fa : ADDRINT) (s : State)
    (h : (Rollback (CheckIfOnWrongPath s)).2 ≠ .returned) :
    Redirect ctxt taken ta fa s = Rollback (CheckIfOnWrongPath s) := by
  rcases hr : Rollback (CheckIfOnWrongPath s) with ⟨s2, c⟩
  cases c with
  | returned => rw [hr] at h; exact absurd rfl h
  | executeAt c => simp [Redirect, RecordInstrAddr_of_fired _ s h, hr]

theorem RecordInstrAddr_tail_frame (addr : ADDRINT) (s : State) :
    (RecordInstrAddr_tail addr s).executing_on_wrong_path = s.executing_on_wrong_path ∧
    (RecordInstrAddr_tail addr s).rollback_ctxt = s.rollback_ctxt ∧
    (RecordInstrAddr_tail addr s).wrong_path_instructions_executed =
      s.wrong_path_instructions_executed ∧
    (RecordInstrAddr_tail addr s).wrong_path_resolution_count = s.wrong_path_resolution_count := by
  unfold RecordInstrAddr_tail emit
  by_cases h1 : s.first_instr_addr = 0 <;> by_cases h2 : s.executing_on_wrong_path = true <;>
    simp [h1, h2]

theorem Redirect_tail_eq (ctxt : CONTEXT) (taken : Bool) (ta fa : ADDRINT) (s : State) :
    Redirect_tail ctxt taken ta fa s =
      ({ s with
          out := s.out ++ [.str (if taken then "Taken branch" else "Not taken branch"), .endl]
            ++ redirectMsg (wrong_path_addr taken ta fa) s.first_instr_addr
          rollback_ctxt := PIN_SetContextReg ctxt .REG_INST_PTR (right_path_addr taken ta fa)
          wrong_path_instructions_executed := 0
          executing_on_wrong_path := true },
       .executeAt (PIN_SetContextReg ctxt .REG_INST_PTR (wrong_path_addr taken ta fa))) := by
  cases taken <;>
    simp [Redirect_tail, emit, PIN_SetContextReg, PIN_SaveContext, wrong_path_addr,
      right_path_addr]

/-! ## The contracts of `Rollback` and `Redirect` -/

/-- C4: `Rollback` changes nothing and returns to its caller when the flag is
false or the counter is at most the threshold; otherwise it clears the counter
and the flag, keeps `rollback_ctxt`, and leaves through `PIN_ExecuteAt` on
exactly the stored context, so that its callers `RecordInstrAddr` and
`Redirect` do nothing more for the current instruction. -/
theorem Rollback_contract (s : State) :
    ((s.executing_on_wrong_path = false ∨
        s.wrong_path_instructions_executed ≤ s.wrong_path_resolution_count) →
      Rollback s = (s, .returned)) ∧
    (¬ (s.executing_on_wrong_path = false ∨
        s.wrong_path_instructions_executed ≤ s.wrong_path_resolution_count) →
      (Rollback s).1.wrong_path_instructions_executed = 0 ∧
      (Rollback s).1.executing_on_wrong_path = false ∧
      (Rollback s).1.rollback_ctxt = s.rollback_ctxt ∧
      (Rollback s).2 = .executeAt s.rollback_ctxt ∧
      (∀ r, ∀ c, (Rollback s).2 = .executeAt c →
        PIN_GetContextReg c r = PIN_GetContextReg s.rollback_ctxt r) ∧
      (∀ s0 addr ctxt taken ta fa, CheckIfOnWrongPath s0 = s →
        RecordInstrAddr addr s0 = Rollback s ∧ Redirect ctxt taken ta fa s0 = Rollback s)) := by
  refine ⟨Rollback_noop s, ?_⟩
  intro h
  push_neg at h
  have hf : s.executing_on_wrong_path = true := by simpa using h.1
  have hr := Rollback_fire s hf h.2
  refine ⟨by rw [hr], by rw [hr], by rw [hr], by rw [hr], ?_, ?_⟩
  · intro r c hc
    rw [hr] at hc
    simp only [Control.executeAt.injEq] at hc
    rw [hc]
  · intro s0 addr ctxt taken ta fa hs0
    have hne : (Rollback (CheckIfOnWrongPath s0)).2 ≠ .returned := by
      rw [hs0, hr]; simp
    rw [RecordInstrAddr_of_fired addr s0 hne, Redirect_of_fired ctxt taken ta fa s0 hne, hs0]
    exact ⟨rfl, rfl⟩

/-- Witness for C4: on the state left by `main` the call is a no-op, and inside
the first wrong-path instruction with threshold 0 it fires. -/
theorem Rollback_contract_witness :
    Rollback (main 0 exCtxt0) = (main 0 exCtxt0, .returned) ∧
    (Rollback exAtCheck).1.wrong_path_instructions_executed = 0 ∧
    (Rollback exAtCheck).1.executing_on_wrong_path = false ∧
    (Rollback exAtCheck).2 = .executeAt ⟨0x2000, [7, 8]⟩ :=
  ⟨(Rollback_contract (main 0 exCtxt0)).1 (by decide),
   ((Rollback_contract exAtCheck).2 (by decide)).1,
   ((Rollback_contract exAtCheck).2 (by decide)).2.1,
   ((Rollback_contract exAtCheck).2 (by decide)).2.2.2.1⟩

/-- C5: when the embedded `Rollback` does not fire, `Redirect` stores the live
context with only the instruction pointer replaced by the right-path address
in `rollback_ctxt`, leaves through `PIN_ExecuteAt` on the live context with
only the instruction pointer replaced by the wrong-path address, and ends with
the counter 0 and the flag true; the two contexts agree on every register
other than the instruction pointer. -/
theorem Redirect_algorithm (c : CONTEXT) (taken : Bool) (ta fa : ADDRINT) (s : State)
    (h : (Rollback (CheckIfOnWrongPath s)).2 = .returned) :
    (Redirect c taken ta fa s).1.rollback_ctxt =
      { c with inst_ptr := if taken then ta else fa } ∧
    (Redirect c taken ta fa s).2 =
      .executeAt { c with inst_ptr := if taken then fa else ta } ∧
    (Redirect c taken ta fa s).1.wrong_path_instructions_executed = 0 ∧
    (Redirect c taken ta fa s).1.executing_on_wrong_path = true ∧
    (∀ r, r ≠ REG.REG_INST_PTR →
      PIN_GetContextReg (Redirect c taken ta fa s).1.rollback_ctxt r =
        PIN_GetContextReg { c with inst_ptr := if taken then fa else ta } r) := by
  rw [Redirect_of_returned c taken ta fa s h, Redirect_tail_eq]
  refine ⟨?_, ?_, rfl, rfl, ?_⟩
  · simp [PIN_SetContextReg, right_path_addr]
  · simp [PIN_SetContextReg, wrong_path_addr]
  · intro r hr
    cases r with
    | REG_INST_PTR => exact absurd rfl hr
    | REG_OTHER i => simp [PIN_SetContextReg, PIN_GetContextReg]

/-- Witness for C5: the taken branch at 0x1000, redirected from the state left
by `main`. -/
theorem Redirect_algorithm_witness :
    (Redirect exCtxt true 0x2000 0x1004 (main 3 exCtxt0)).1.rollback_ctxt = ⟨0x2000, [7, 8]⟩ ∧
    (Redirect exCtxt true 0x2000 0x1004 (main 3 exCtxt0)).2 = .executeAt ⟨0x1004, [7, 8]⟩ :=
  ⟨(Redirect_algorithm exCtxt true 0x2000 0x1004 (main 3 exCtxt0) (by decide)).1,
   (Redirect_algorithm exCtxt true 0x2000 0x1004 (main 3 exCtxt0) (by decide)).2.1⟩

/-- C8: once `Rollback` has fired, handling the next instruction
(`CheckIfOnWrongPath`, then `Rollback`) does not fire it again and leaves the
flag false, the counter 0 and `rollback_ctxt` as they were; `Rollback` called
directly on the state after the rollback is a no-op too. -/
theorem Rollback_idempotent (s : State) (h : (Rollback s).2 ≠ .returned) :
    Rollback (CheckIfOnWrongPath (Rollback s).1) = ((Rollback s).1, .returned) ∧
    (Rollback s).1.executing_on_wrong_path = false ∧
    (Rollback s).1.wrong_path_instructions_executed = 0 ∧
    (Rollback s).1.rollback_ctxt = s.rollback_ctxt ∧
    Rollback (Rollback s).1 = ((Rollback s).1, .returned) ∧
    (∀ addr, (RecordInstrAddr addr (Rollback s).1).2 = .returned ∧
      (RecordInstrAddr addr (Rollback s).1).1.executing_on_wrong_path = false ∧
      (RecordInstrAddr addr (Rollback s).1).1.wrong_path_instructions_executed = 0 ∧
      (RecordInstrAddr addr (Rollback s).1).1.rollback_ctxt = s.rollback_ctxt) := by
  have hc : ¬ (s.executing_on_wrong_path = false ∨
      s.wrong_path_instructions_executed ≤ s.wrong_path_resolution_count) :=
    fun hn => h ((Rollback_returned_iff s).mpr hn)
  push_neg at hc
  have hf : s.executing_on_wrong_path = true := by simpa using hc.1
  have hr := Rollback_fire s hf hc.2
  have hchk : CheckIfOnWrongPath (Rollback s).1 = (Rollback s).1 := by
    rw [hr]; simp [CheckIfOnWrongPath]
  have hno : Rollback (Rollback s).1 = ((Rollback s).1, .returned) :=
    Rollback_noop _ (Or.inl (by rw [hr]))
  refine ⟨by rw [hchk, hno], by rw [hr], by rw [hr], by rw [hr], hno, ?_⟩
  intro addr
  have hret : (Rollback (CheckIfOnWrongPath (Rollback s).1)).2 = .returned := by
    rw [hchk, hno]
  rw [RecordInstrAddr_of_returned addr _ hret, hchk]
  have hfr := RecordInstrAddr_tail_frame addr (Rollback s).1
  refine ⟨rfl, ?_, ?_, ?_⟩
  · rw [hfr.1, hr]
  · rw [hfr.2.2.1, hr]
  · rw [hfr.2.1, hr]

/-- Witness for C8: the rollback of the first wrong-path instruction with
threshold 0. -/
theorem Rollback_idempotent_witness :
    Rollback (CheckIfOnWrongPath (Rollback exAtCheck).1) = ((Rollback exAtCheck).1, .returned) ∧
    Rollback (Rollback exAtCheck).1 = ((Rollback exAtCheck).1, .returned) :=
  ⟨(Rollback_idempotent exAtCheck (by decide)).1,
   (Rollback_idempotent exAtCheck (by decide)).2.2.2.2.1⟩

/-! ## Invariants of the path state -/

theorem Step.apply_preserves_counter_inv (st : Step) (s : State)
    (h : s.executing_on_wrong_path = false → s.wrong_path_instructions_executed = 0) :
    (st.apply s).executing_on_wrong_path = false →
      (st.apply s).wrong_path_instructions_executed = 0 := by
  have hroll : ∀ t : State,
      (t.executing_on_wrong_path = false → t.wrong_path_instructions_executed = 0) →
      (Rollback t).1.executing_on_wrong_path = false →
        (Rollback t).1.wrong_path_instructions_executed = 0 := by
    intro t ht
    by_cases hc : (Rollback t).2 = .returned
    · rw [Rollback_noop t ((Rollback_returned_iff t).mp hc)]
      exact ht
    · have hn : ¬ (t.executing_on_wrong_path = false ∨
          t.wrong_path_instructions_executed ≤ t.wrong_path_resolution_count) :=
        fun hn => hc ((Rollback_returned_iff t).mpr hn)
      push_neg at hn
      intro _
      rw [Rollback_fire t (by simpa using hn.1) hn.2]
  have hchk : (CheckIfOnWrongPath s).executing_on_wrong_path = false →
      (CheckIfOnWrongPath s).wrong_path_instructions_executed = 0 := by
    unfold CheckIfOnWrongPath
    split <;> simp_all
  cases st with
  | checkIfOnWrongPath => exact hchk
  | rollback => exact hroll s h
  | recordInstrAddr a =>
    simp only [Step.apply]
    by_cases hc : (Rollback (CheckIfOnWrongPath s)).2 = .returned
    · rw [RecordInstrAddr_of_returned a s hc]
      have hfr := RecordInstrAddr_tail_frame a (CheckIfOnWrongPath s)
      show (RecordInstrAddr_tail a (CheckIfOnWrongPath s)).executing_on_wrong_path = false →
        (RecordInstrAddr_tail a (CheckIfOnWrongPath s)).wrong_path_instructions_executed = 0
      rw [hfr.1, hfr.2.2.1]
      exact hchk
    · rw [RecordInstrAddr_of_fired a s hc]
      exact hroll _ hchk
  | redirect c t ta fa =>
    simp only [Step.apply]
    by_cases hc : (Rollback (CheckIfOnWrongPath s)).2 = .returned
    · intro _
      rw [Redirect_of_returned c t ta fa s hc, Redirect_tail_eq]
    · rw [Redirect_of_fired c t ta fa s hc]
      exact hroll _ hchk

theorem runSteps_preserves_counter_inv (steps : List Step) (s : State)
    (h : s.executing_on_wrong_path = false → s.wrong_path_instructions_executed = 0) :
    (runSteps steps s).executing_on_wrong_path = false →
      (runSteps steps s).wrong_path_instructions_executed = 0 := by
  induction steps generalizing s with
  | nil => exact h
  | cons st rest ih => exact ih (st.apply s) (Step.apply_preserves_counter_inv st s h)

/-- C3: in every state reachable from the state left by `main` (flag false,
counter 0) by calls of `CheckIfOnWrongPath`, `Rollback`, `RecordInstrAddr` and
`Redirect` in any order, the counter is non-zero only if the flag is true; and
`CheckIfOnWrongPath` run with the flag false leaves the counter 0 and the flag
false. -/
theorem counter_nonzero_only_on_wrong_path (s : State) (h : Reachable s) :
    (s.wrong_path_instructions_executed ≠ 0 → s.executing_on_wrong_path = true) ∧
    (s.executing_on_wrong_path = false →
      (CheckIfOnWrongPath s).wrong_path_instructions_executed = 0 ∧
      (CheckIfOnWrongPath s).executing_on_wrong_path = false) := by
  obtain ⟨n, c0, steps, rfl⟩ := h
  constructor
  · intro hne
    by_contra hf
    have hf2 : (runSteps steps (main n c0)).executing_on_wrong_path = false := by
      simpa using hf
    exact hne (runSteps_preserves_counter_inv steps (main n c0) (fun _ => rfl) hf2)
  · intro hf
    rw [CheckIfOnWrongPath_off _ hf]
    exact ⟨rfl, hf⟩

/-- Witness for C3: one instruction into the wrong-path excursion with
threshold 3 the counter is 1 and the flag is true; after the rollback with
threshold 0 the flag is false and `CheckIfOnWrongPath` leaves the counter 0. -/
theorem counter_nonzero_only_on_wrong_path_witness :
    (runSteps [.redirect exCtxt true 0x2000 0x1004, .recordInstrAddr 0x1004]
      (main 3 exCtxt0)).executing_on_wrong_path = true ∧
    (CheckIfOnWrongPath (runSteps [.redirect exCtxt true 0x2000 0x1004, .recordInstrAddr 0x1004]
      (main 0 exCtxt0))).wrong_path_instructions_executed = 0 :=
  ⟨(counter_nonzero_only_on_wrong_path
      (runSteps [.redirect exCtxt true 0x2000 0x1004, .recordInstrAddr 0x1004] (main 3 exCtxt0))
      ⟨3, exCtxt0, [.redirect exCtxt true 0x2000 0x1004, .recordInstrAddr 0x1004], rfl⟩).1
      (by decide),
   ((counter_nonzero_only_on_wrong_path
      (runSteps [.redirect exCtxt true 0x2000 0x1004, .recordInstrAddr 0x1004] (main 0 exCtxt0))
      ⟨0, exCtxt0, [.redirect exCtxt true 0x2000 0x1004, .recordInstrAddr 0x1004], rfl⟩).2
      (by decide)).1⟩

/-- C2 as stated fails: with threshold 0 the state after the redirection of
the branch at 0x1000 is reachable, and `Redirect` invoked there for a branch at
the wrong-path target 0x1004 (not taken, fallthrough 0x1008) ends with the flag
false and with the old checkpoint 0x2000, not 0x1008, in `rollback_ctxt`. -/
theorem Redirect_invariant_counterexample :
    Reachable (exSpec 0) ∧
    (Redirect exCtxt2 false 0x3000 0x1008 (exSpec 0)).1.executing_on_wrong_path = false ∧
    PIN_GetContextReg (Redirect exCtxt2 false 0x3000 0x1008 (exSpec 0)).1.rollback_ctxt
      .REG_INST_PTR = 0x2000 ∧
    (0x2000 : ADDRINT) ≠ (if false then 0x3000 else 0x1008) :=
  ⟨⟨0, exCtxt0, [.redirect exCtxt true 0x2000 0x1004], rfl⟩, by decide, by decide, by decide⟩

/-- C2, amended: for every state, reachable or not, and every invocation of
`Redirect` on which the embedded `Rollback` does not fire (in particular every
invocation with the flag false), afterwards the flag is true and the
instruction pointer stored in `rollback_ctxt` is the right-path address,
`taken_addr` if taken and `fallthrough_addr` otherwise. -/
theorem Redirect_invariant (c : CONTEXT) (taken : Bool) (ta fa : ADDRINT) (s : State)
    (h : (Rollback (CheckIfOnWrongPath s)).2 = .returned ∨ s.executing_on_wrong_path = false) :
    (Redirect c taken ta fa s).1.executing_on_wrong_path = true ∧
    PIN_GetContextReg (Redirect c taken ta fa s).1.rollback_ctxt .REG_INST_PTR =
      (if taken then ta else fa) := by
  have h2 : (Rollback (CheckIfOnWrongPath s)).2 = .returned := by
    rcases h with h | h
    · exact h
    · exact (Rollback_returned_iff _).mpr
        (Or.inl (by rw [(CheckIfOnWrongPath_frame s).1]; exact h))
  rw [Redirect_of_returned c taken ta fa s h2, Redirect_tail_eq]
  refine ⟨rfl, ?_⟩
  simp [PIN_SetContextReg, PIN_GetContextReg, right_path_addr]

/-- Witness for C2, amended: the not taken branch at 0x1000 redirected from
the state left by `main`. -/
theorem Redirect_invariant_witness :
    (Redirect exCtxt false 0x2000 0x1004 (main 0 exCtxt0)).1.executing_on_wrong_path = true ∧
    PIN_GetContextReg (Redirect exCtxt false 0x2000 0x1004 (main 0 exCtxt0)).1.rollback_ctxt
      .REG_INST_PTR = 0x1004 :=
  Redirect_invariant exCtxt false 0x2000 0x1004 (main 0 exCtxt0) (Or.inr rfl)

/-! ## Runs of non-branch instructions on the wrong path -/

theorem UINT_incr_of_lt (n : Nat) (h : n + 1 < UINT_MOD) : UINT_incr n = n + 1 := by
  unfold UINT_incr
  exact Nat.mod_eq_of_lt h

theorem Rollback_fired_iff (s : State) :
    (Rollback s).2 ≠ .returned ↔
      (s.executing_on_wrong_path = true ∧
        s.wrong_path_resolution_count < s.wrong_path_instructions_executed) := by
  rw [Ne, Rollback_returned_iff]
  push_neg
  simp

theorem RecordInstrAddr_tail_counts (addr : ADDRINT) (s : State) :
    wrongPathLines (RecordInstrAddr_tail addr s).out =
      wrongPathLines s.out + (if s.executing_on_wrong_path then 1 else 0) ∧
    executingLines (RecordInstrAddr_tail addr s).out = executingLines s.out + 1 ∧
    rollbackLines (RecordInstrAddr_tail addr s).out = rollbackLines s.out := by
  unfold RecordInstrAddr_tail emit wrongPathLines executingLines rollbackLines
  by_cases h1 : s.first_instr_addr = 0 <;> by_cases h2 : s.executing_on_wrong_path = true <;>
    simp [h1, h2, wrongPathMsg, executingMsg, List.count_cons, List.count_append]

theorem rollbackMsg_counts (a f : ADDRINT) :
    wrongPathLines (rollbackMsg a f) = 0 ∧ executingLines (rollbackMsg a f) = 0 ∧
    rollbackLines (rollbackMsg a f) = 1 := by
  simp [wrongPathLines, executingLines, rollbackLines, rollbackMsg, List.count_cons]

/-- One wrong-path instruction below the threshold: it gets past `Rollback`
and is traced with the annotation. -/
theorem RecordInstrAddr_pass (addr : ADDRINT) (s : State)
    (hf : s.executing_on_wrong_path = true)
    (hlt : s.wrong_path_instructions_executed < s.wrong_path_resolution_count)
    (hT : s.wrong_path_resolution_count < UINT_MOD) :
    (RecordInstrAddr addr s).2 = .returned ∧
    (RecordInstrAddr addr s).1.executing_on_wrong_path = true ∧
    (RecordInstrAddr addr s).1.wrong_path_instructions_executed =
      s.wrong_path_instructions_executed + 1 ∧
    (RecordInstrAddr addr s).1.wrong_path_resolution_count = s.wrong_path_resolution_count ∧
    (RecordInstrAddr addr s).1.rollback_ctxt = s.rollback_ctxt ∧
    wrongPathLines (RecordInstrAddr addr s).1.out = wrongPathLines s.out + 1 ∧
    executingLines (RecordInstrAddr addr s).1.out = executingLines s.out + 1 ∧
    rollbackLines (RecordInstrAddr addr s).1.out = rollbackLines s.out := by
  have hincr : UINT_incr s.wrong_path_instructions_executed =
      s.wrong_path_instructions_executed + 1 :=
    UINT_incr_of_lt _ (by unfold UINT at *; omega)
  have hchk := CheckIfOnWrongPath_on s hf
  have hret : (Rollback (CheckIfOnWrongPath s)).2 = .returned := by
    rw [Rollback_returned_iff, hchk]
    right
    show UINT_incr s.wrong_path_instructions_executed ≤ s.wrong_path_resolution_count
    rw [hincr]
    exact hlt
  rw [RecordInstrAddr_of_returned addr s hret]
  have hfr := RecordInstrAddr_tail_frame addr (CheckIfOnWrongPath s)
  have hct := RecordInstrAddr_tail_counts addr (CheckIfOnWrongPath s)
  refine ⟨rfl, ?_, ?_, ?_, ?_, ?_, ?_, ?_⟩
  · show (RecordInstrAddr_tail addr (CheckIfOnWrongPath s)).executing_on_wrong_path = true
    rw [hfr.1, hchk]; exact hf
  · show (RecordInstrAddr_tail addr (CheckIfOnWrongPath s)).wrong_path_instructions_executed = _
    rw [hfr.2.2.1, hchk]; exact hincr
  · show (RecordInstrAddr_tail addr (CheckIfOnWrongPath s)).wrong_path_resolution_count = _
    rw [hfr.2.2.2, hchk]
  · show (RecordInstrAddr_tail addr (CheckIfOnWrongPath s)).rollback_ctxt = _
    rw [hfr.2.1, hchk]
  · show wrongPathLines (RecordInstrAddr_tail addr (CheckIfOnWrongPath s)).out = _
    rw [hct.1, hchk]; simp [hf]
  · show executingLines (RecordInstrAddr_tail addr (CheckIfOnWrongPath s)).out = _
    rw [hct.2.1, hchk]
  · show rollbackLines (RecordInstrAddr_tail addr (CheckIfOnWrongPath s)).out = _
    rw [hct.2.2, hchk]

/-- The wrong-path instruction that finds the counter equal to the threshold:
`Rollback` fires and the instruction is not traced. -/
theorem RecordInstrAddr_fire (addr : ADDRINT) (s : State)
    (hf : s.executing_on_wrong_path = true)
    (heq : s.wrong_path_instructions_executed = s.wrong_path_resolution_count)
    (hT : s.wrong_path_resolution_count + 1 < UINT_MOD) :
    (RecordInstrAddr addr s).2 = .executeAt s.rollback_ctxt ∧
    (RecordInstrAddr addr s).1.executing_on_wrong_path = false ∧
    (RecordInstrAddr addr s).1.wrong_path_instructions_executed = 0 ∧
    (RecordInstrAddr addr s).1.rollback_ctxt = s.rollback_ctxt ∧
    wrongPathLines (RecordInstrAddr addr s).1.out = wrongPathLines s.out ∧
    executingLines (RecordInstrAddr addr s).1.out = executingLines s.out ∧
    rollbackLines (RecordInstrAddr addr s).1.out = rollbackLines s.out + 1 := by
  have hincr : UINT_incr s.wrong_path_instructions_executed =
      s.wrong_path_instructions_executed + 1 :=
    UINT_incr_of_lt _ (by unfold UINT at *; omega)
  have hchk := CheckIfOnWrongPath_on s hf
  have hlt : (CheckIfOnWrongPath s).wrong_path_resolution_count <
      (CheckIfOnWrongPath s).wrong_path_instructions_executed := by
    rw [hchk]
    show s.wrong_path_resolution_count < UINT_incr s.wrong_path_instructions_executed
    rw [hincr, heq]
    exact Nat.lt_succ_self _
  have hf2 : (CheckIfOnWrongPath s).executing_on_wrong_path = true := by
    rw [hchk]; exact hf
  have hne : (Rollback (CheckIfOnWrongPath s)).2 ≠ .returned :=
    (Rollback_fired_iff _).mpr ⟨hf2, hlt⟩
  rw [RecordInstrAddr_of_fired addr s hne, Rollback_fire _ hf2 hlt]
  have hm := rollbackMsg_counts
    (PIN_GetContextReg (CheckIfOnWrongPath s).rollback_ctxt .REG_INST_PTR)
    (CheckIfOnWrongPath s).first_instr_addr
  have hfr := CheckIfOnWrongPath_frame s
  refine ⟨?_, rfl, rfl, ?_, ?_, ?_, ?_⟩
  · show Control.executeAt (CheckIfOnWrongPath s).rollback_ctxt = _
    rw [hfr.2.1]
  · exact hfr.2.1
  · show wrongPathLines ((CheckIfOnWrongPath s).out ++ _) = _
    unfold wrongPathLines at hm ⊢
    rw [List.count_append, hm.1, hfr.2.2.2.2]; rfl
  · show executingLines ((CheckIfOnWrongPath s).out ++ _) = _
    unfold executingLines at hm ⊢
    rw [List.count_append, hm.2.1, hfr.2.2.2.2]; rfl
  · show rollbackLines ((CheckIfOnWrongPath s).out ++ _) = _
    unfold rollbackLines at hm ⊢
    rw [List.count_append, hm.2.2, hfr.2.2.2.2]

/-- Every call of `RecordInstrAddr` keeps `rollback_ctxt` and the threshold,
and when it leaves through `PIN_ExecuteAt` the target is `rollback_ctxt`. -/
theorem RecordInstrAddr_ctxt (addr : ADDRINT) (s : State) :
    (RecordInstrAddr addr s).1.rollback_ctxt = s.rollback_ctxt ∧
    (RecordInstrAddr addr s).1.wrong_path_resolution_count = s.wrong_path_resolution_count ∧
    (∀ c, (RecordInstrAddr addr s).2 = .executeAt c → c = s.rollback_ctxt) := by
  have hfr := CheckIfOnWrongPath_frame s
  by_cases hc : (Rollback (CheckIfOnWrongPath s)).2 = .returned
  · rw [RecordInstrAddr_of_returned addr s hc]
    have ht := RecordInstrAddr_tail_frame addr (CheckIfOnWrongPath s)
    refine ⟨?_, ?_, ?_⟩
    · show (RecordInstrAddr_tail addr (CheckIfOnWrongPath s)).rollback_ctxt = _
      rw [ht.2.1, hfr.2.1]
    · show (RecordInstrAddr_tail addr (CheckIfOnWrongPath s)).wrong_path_resolution_count = _
      rw [ht.2.2.2, hfr.2.2.2.1]
    · intro c h
      simp at h
  · have hfi := (Rollback_fired_iff _).mp hc
    rw [RecordInstrAddr_of_fired addr s hc, Rollback_fire _ hfi.1 hfi.2]
    refine ⟨hfr.2.1, hfr.2.2.2.1, ?_⟩
    intro c h
    simp only [Control.executeAt.injEq] at h
    rw [← h, hfr.2.1]

theorem observe_nil (s : State) : observe [] s = (s, .returned) := rfl

theorem observe_cons_returned (a : ADDRINT) (rest : List ADDRINT) (s : State)
    (h : (RecordInstrAddr a s).2 = .returned) :
    observe (a :: rest) s = observe rest (RecordInstrAddr a s).1 := by
  rcases hr : RecordInstrAddr a s with ⟨s2, c⟩
  rw [hr] at h
  simp only at h
  subst h
  simp [observe, hr]

theorem observe_cons_fired (a : ADDRINT) (rest : List ADDRINT) (s : State)
    (h : (RecordInstrAddr a s).2 ≠ .returned) :
    observe (a :: rest) s = RecordInstrAddr a s := by
  rcases hr : RecordInstrAddr a s with ⟨s2, c⟩
  cases c with
  | returned => rw [hr] at h; exact absurd rfl h
  | executeAt c => simp [observe, hr]

theorem observe_singleton (a : ADDRINT) (s : State) :
    observe [a] s = RecordInstrAddr a s := by
  rcases hr : RecordInstrAddr a s with ⟨s2, c⟩
  cases c <;> simp [observe, hr]

theorem observe_append_returned (l m : List ADDRINT) (s : State)
    (h : (observe l s).2 = .returned) :
    observe (l ++ m) s = observe m (observe l s).1 := by
  induction l generalizing s with
  | nil => rfl
  | cons b rest ih =>
    by_cases hb : (RecordInstrAddr b s).2 = .returned
    · rw [List.cons_append, observe_cons_returned b _ s hb, observe_cons_returned b rest s hb]
      rw [observe_cons_returned b rest s hb] at h
      exact ih _ h
    · rw [observe_cons_fired b rest s hb] at h
      exact absurd h hb

/-- A run of non-branch instructions keeps `rollback_ctxt`, and when it ends in
`PIN_ExecuteAt` the target is `rollback_ctxt`. -/
theorem observe_ctxt (addrs : List ADDRINT) (s : State) :
    (observe addrs s).1.rollback_ctxt = s.rollback_ctxt ∧
    (∀ c, (observe addrs s).2 = .executeAt c → c = s.rollback_ctxt) := by
  induction addrs generalizing s with
  | nil =>
    refine ⟨rfl, ?_⟩
    intro c h
    simp [observe] at h
  | cons a rest ih =>
    have h1 := RecordInstrAddr_ctxt a s
    by_cases hc : (RecordInstrAddr a s).2 = .returned
    · rw [observe_cons_returned a rest s hc]
      have h2 := ih (RecordInstrAddr a s).1
      refine ⟨by rw [h2.1, h1.1], ?_⟩
      intro c h
      rw [h2.2 c h, h1.1]
    · rw [observe_cons_fired a rest s hc]
      exact ⟨h1.1, h1.2.2⟩

/-- The instructions that find the counter below the threshold all get past
`Rollback` and are traced with the annotation. -/
theorem observe_pass (addrs : List ADDRINT) (s : State)
    (hf : s.executing_on_wrong_path = true)
    (hle : s.wrong_path_instructions_executed + addrs.length ≤ s.wrong_path_resolution_count)
    (hT : s.wrong_path_resolution_count < UINT_MOD) :
    (observe addrs s).2 = .returned ∧
    (observe addrs s).1.executing_on_wrong_path = true ∧
    (observe addrs s).1.wrong_path_instructions_executed =
      s.wrong_path_instructions_executed + addrs.length ∧
    (observe addrs s).1.wrong_path_resolution_count = s.wrong_path_resolution_count ∧
    wrongPathLines (observe addrs s).1.out = wrongPathLines s.out + addrs.length ∧
    executingLines (observe addrs s).1.out = executingLines s.out + addrs.length ∧
    rollbackLines (observe addrs s).1.out = rollbackLines s.out := by
  induction addrs generalizing s with
  | nil => exact ⟨rfl, hf, rfl, rfl, rfl, rfl, rfl⟩
  | cons a rest ih =>
    rw [List.length_cons] at hle
    have hlt : s.wrong_path_instructions_executed < s.wrong_path_resolution_count := by
      unfold UINT at *; omega
    have h1 := RecordInstrAddr_pass a s hf hlt hT
    rw [observe_cons_returned a rest s h1.1]
    have h2 := ih (RecordInstrAddr a s).1 h1.2.1
      (by rw [h1.2.2.1, h1.2.2.2.1]; unfold UINT at *; omega)
      (by rw [h1.2.2.2.1]; exact hT)
    refine ⟨h2.1, h2.2.1, ?_, ?_, ?_, ?_, ?_⟩
    · rw [h2.2.2.1, h1.2.2.1, List.length_cons]; unfold UINT at *; omega
    · rw [h2.2.2.2.1, h1.2.2.2.1]
    · rw [h2.2.2.2.2.1, h1.2.2.2.2.2.1, List.length_cons]; omega
    · rw [h2.2.2.2.2.2.1, h1.2.2.2.2.2.2.1, List.length_cons]; omega
    · rw [h2.2.2.2.2.2.2, h1.2.2.2.2.2.2.2]

/-- A run one instruction longer than the distance to the threshold ends in
the rollback, during the handling of its last instruction. -/
theorem observe_fire (addrs : List ADDRINT) (s : State)
    (hf : s.executing_on_wrong_path = true)
    (hc : s.wrong_path_instructions_executed ≤ s.wrong_path_resolution_count)
    (hlen : s.wrong_path_instructions_executed + addrs.length =
      s.wrong_path_resolution_count + 1)
    (hT : s.wrong_path_resolution_count + 1 < UINT_MOD) :
    (observe addrs s).2 = .executeAt s.rollback_ctxt ∧
    (observe addrs s).1.executing_on_wrong_path = false ∧
    (observe addrs s).1.wrong_path_instructions_executed = 0 ∧
    wrongPathLines (observe addrs s).1.out + 1 = wrongPathLines s.out + addrs.length ∧
    executingLines (observe addrs s).1.out + 1 = executingLines s.out + addrs.length ∧
    rollbackLines (observe addrs s).1.out = rollbackLines s.out + 1 := by
  induction addrs generalizing s with
  | nil =>
    exfalso
    simp only [List.length_nil] at hlen
    unfold UINT at *
    omega
  | cons a rest ih =>
    rw [List.length_cons] at hlen
    by_cases hr : rest = []
    · subst hr
      have heq : s.wrong_path_instructions_executed = s.wrong_path_resolution_count := by
        simp only [List.length_nil] at hlen
        unfold UINT at *; omega
      have h1 := RecordInstrAddr_fire a s hf heq hT
      have hne : (RecordInstrAddr a s).2 ≠ .returned := by rw [h1.1]; simp
      rw [observe_cons_fired a [] s hne]
      refine ⟨h1.1, h1.2.1, h1.2.2.1, ?_, ?_, h1.2.2.2.2.2.2⟩
      · rw [h1.2.2.2.2.1]; rfl
      · rw [h1.2.2.2.2.2.1]; rfl
    · have hpos : 0 < rest.length := List.length_pos.mpr hr
      have hlt : s.wrong_path_instructions_executed < s.wrong_path_resolution_count := by
        unfold UINT at *; omega
      have h1 := RecordInstrAddr_pass a s hf hlt (by unfold UINT at *; omega)
      rw [observe_cons_returned a rest s h1.1]
      have h2 := ih (RecordInstrAddr a s).1 h1.2.1
        (by rw [h1.2.2.1, h1.2.2.2.1]; unfold UINT at *; omega)
        (by rw [h1.2.2.1, h1.2.2.2.1]; unfold UINT at *; omega)
        (by rw [h1.2.2.2.1]; exact hT)
      refine ⟨by rw [h2.1, h1.2.2.2.2.1], h2.2.1, h2.2.2.1, ?_, ?_, ?_⟩
      · rw [h2.2.2.2.1, h1.2.2.2.2.2.1, List.length_cons]; omega
      · rw [h2.2.2.2.2.1, h1.2.2.2.2.2.2.1, List.length_cons]; omega
      · rw [h2.2.2.2.2.2, h1.2.2.2.2.2.2.2]

/-- The path state right after a redirection that was not pre-empted by the
embedded `Rollback`. -/
theorem Redirect_spec_state (c : CONTEXT) (taken : Bool) (ta fa : ADDRINT) (s : State)
    (h : (Rollback (CheckIfOnWrongPath s)).2 = .returned) :
    (Redirect c taken ta fa s).1.executing_on_wrong_path = true ∧
    (Redirect c taken ta fa s).1.wrong_path_instructions_executed = 0 ∧
    (Redirect c taken ta fa s).1.wrong_path_resolution_count = s.wrong_path_resolution_count ∧
    (Redirect c taken ta fa s).1.rollback_ctxt =
      { c with inst_ptr := if taken then ta else fa } := by
  rw [Redirect_of_returned c taken ta fa s h, Redirect_tail_eq]
  refine ⟨rfl, rfl, ?_, ?_⟩
  · show (RecordInstrAddr_tail _ (CheckIfOnWrongPath s)).wrong_path_resolution_count = _
    rw [(RecordInstrAddr_tail_frame _ _).2.2.2, (CheckIfOnWrongPath_frame s).2.2.2.1]
  · simp [PIN_SetContextReg, right_path_addr]

theorem Rollback_returned_of_off (s : State) (h : s.executing_on_wrong_path = false) :
    (Rollback (CheckIfOnWrongPath s)).2 = .returned :=
  (Rollback_returned_iff _).mpr (Or.inl (by rw [(CheckIfOnWrongPath_frame s).1]; exact h))

/-- With the largest threshold a `UINT` can hold the counter never exceeds the
threshold, so no instruction is rolled back. -/
theorem RecordInstrAddr_max_threshold (addr : ADDRINT) (s : State)
    (hT : s.wrong_path_resolution_count = UINT_MOD - 1) :
    (RecordInstrAddr addr s).2 = .returned ∧
    (RecordInstrAddr addr s).1.wrong_path_resolution_count = UINT_MOD - 1 := by
  have hret : (Rollback (CheckIfOnWrongPath s)).2 = .returned := by
    rw [Rollback_returned_iff]
    by_cases hf : s.executing_on_wrong_path = true
    · right
      rw [CheckIfOnWrongPath_on s hf]
      show UINT_incr s.wrong_path_instructions_executed ≤ s.wrong_path_resolution_count
      rw [hT]
      have : UINT_incr s.wrong_path_instructions_executed < UINT_MOD :=
        Nat.mod_lt _ (by unfold UINT_MOD; norm_num)
      unfold UINT at *
      omega
    · left
      rw [(CheckIfOnWrongPath_frame s).1]
      simpa using hf
  refine ⟨by rw [RecordInstrAddr_of_returned addr s hret], ?_⟩
  rw [(RecordInstrAddr_ctxt addr s).2.1, hT]

theorem observe_max_threshold (addrs : List ADDRINT) (s : State)
    (hT : s.wrong_path_resolution_count = UINT_MOD - 1) :
    (observe addrs s).2 = .returned := by
  induction addrs generalizing s with
  | nil => rfl
  | cons a rest ih =>
    have h1 := RecordInstrAddr_max_threshold a s hT
    rw [observe_cons_returned a rest s h1.1]
    exact ih _ h1.2

/-! ## Length of the wrong-path excursion -/

/-- C1 as stated fails.  With threshold 0 the first instruction after the
redirection is rolled back, so no wrong-path instruction is traced, not one;
with threshold 3 three instructions are traced with the annotation and the
fourth is rolled back, so three are traced, not four; and with the largest
threshold a `UINT` holds no run of instructions is ever rolled back. -/
theorem wrong_path_instruction_count_counterexample :
    ((observe [0x1004] (exSpec 0)).2 = .executeAt ⟨0x2000, [7, 8]⟩ ∧
      wrongPathLines (observe [0x1004] (exSpec 0)).1.out = wrongPathLines (exSpec 0).out ∧
      wrongPathLines (observe [0x1004] (exSpec 0)).1.out ≠
        wrongPathLines (exSpec 0).out + (0 + 1)) ∧
    ((observe [0x1004, 0x1008, 0x100c] (exSpec 3)).2 = .returned ∧
      (observe [0x1004, 0x1008, 0x100c, 0x1010] (exSpec 3)).2 = .executeAt ⟨0x2000, [7, 8]⟩ ∧
      wrongPathLines (observe [0x1004, 0x1008, 0x100c, 0x1010] (exSpec 3)).1.out =
        wrongPathLines (exSpec 3).out + 3 ∧
      wrongPathLines (observe [0x1004, 0x1008, 0x100c, 0x1010] (exSpec 3)).1.out ≠
        wrongPathLines (exSpec 3).out + (3 + 1)) ∧
    ((exSpec (2 ^ 32 - 1)).executing_on_wrong_path = true ∧
      ∀ addrs, (observe addrs (exSpec (2 ^ 32 - 1))).2 = .returned) := by
  refine ⟨by decide, by decide, by decide, ?_⟩
  intro addrs
  exact observe_max_threshold addrs _ (by decide)

/-- C1, amended: for a threshold `T` below 2^32 - 1 and a speculation begun by
`Redirect` from an on-path state and followed by non-branch instructions, each
of the first `T` instructions gets past `Rollback` and is traced with the
wrong-path annotation, and `Rollback` fires during the handling of the next
one, which is not traced: exactly `T` annotated lines precede the one
`Rolling back` message. -/
theorem wrong_path_instruction_count (c : CONTEXT) (taken : Bool) (ta fa : ADDRINT)
    (s s1 : State) (addrs : List ADDRINT)
    (hon : s.executing_on_wrong_path = false)
    (hT : s.wrong_path_resolution_count < UINT_MOD - 1)
    (hs1 : s1 = (Redirect c taken ta fa s).1)
    (hlen : addrs.length = s.wrong_path_resolution_count + 1) :
    (∀ k, k ≤ s.wrong_path_resolution_count →
      (observe (addrs.take k) s1).2 = .returned ∧
      wrongPathLines (observe (addrs.take k) s1).1.out = wrongPathLines s1.out + k ∧
      executingLines (observe (addrs.take k) s1).1.out = executingLines s1.out + k ∧
      rollbackLines (observe (addrs.take k) s1).1.out = rollbackLines s1.out) ∧
    (observe addrs s1).2 = .executeAt { c with inst_ptr := if taken then ta else fa } ∧
    wrongPathLines (observe addrs s1).1.out = wrongPathLines s1.out + s.wrong_path_resolution_count ∧
    executingLines (observe addrs s1).1.out = executingLines s1.out + s.wrong_path_resolution_count ∧
    rollbackLines (observe addrs s1).1.out = rollbackLines s1.out + 1 := by
  have hst := Redirect_spec_state c taken ta fa s (Rollback_returned_of_off s hon)
  rw [← hs1] at hst
  obtain ⟨hf1, hc1, hT1, hctx1⟩ := hst
  have hmod : 0 < UINT_MOD := by unfold UINT_MOD; norm_num
  constructor
  · intro k hk
    have hkl : (addrs.take k).length = k := by
      rw [List.length_take, hlen]; unfold UINT at *; omega
    have hp := observe_pass (addrs.take k) s1 hf1
      (by rw [hc1, hT1, hkl]; unfold UINT at *; omega)
      (by rw [hT1]; unfold UINT at *; omega)
    rw [hkl] at hp
    exact ⟨hp.1, hp.2.2.2.2.1, hp.2.2.2.2.2.1, hp.2.2.2.2.2.2⟩
  · have hfire := observe_fire addrs s1 hf1
      (by rw [hc1]; exact Nat.zero_le _)
      (by rw [hc1, hT1, hlen]; unfold UINT at *; omega)
      (by rw [hT1]; unfold UINT at *; omega)
    rw [hlen] at hfire
    refine ⟨by rw [hfire.1, hctx1], ?_, ?_, hfire.2.2.2.2.2⟩
    · have := hfire.2.2.2.1
      unfold UINT at *; omega
    · have := hfire.2.2.2.2.1
      unfold UINT at *; omega

/-- Witness for C1, amended: threshold 3, the taken branch at 0x1000 and four
instructions on the wrong path. -/
theorem wrong_path_instruction_count_witness :
    (observe [0x1004, 0x1008, 0x100c, 0x1010] (exSpec 3)).2 = .executeAt ⟨0x2000, [7, 8]⟩ ∧
    wrongPathLines (observe [0x1004, 0x1008, 0x100c, 0x1010] (exSpec 3)).1.out =
      wrongPathLines (exSpec 3).out + 3 ∧
    rollbackLines (observe [0x1004, 0x1008, 0x100c, 0x1010] (exSpec 3)).1.out =
      rollbackLines (exSpec 3).out + 1 :=
  ⟨(wrong_path_instruction_count exCtxt true 0x2000 0x1004 (main 3 exCtxt0) (exSpec 3)
      [0x1004, 0x1008, 0x100c, 0x1010] rfl (by decide) rfl rfl).2.1,
   (wrong_path_instruction_count exCtxt true 0x2000 0x1004 (main 3 exCtxt0) (exSpec 3)
      [0x1004, 0x1008, 0x100c, 0x1010] rfl (by decide) rfl rfl).2.2.1,
   (wrong_path_instruction_count exCtxt true 0x2000 0x1004 (main 3 exCtxt0) (exSpec 3)
      [0x1004, 0x1008, 0x100c, 0x1010] rfl (by decide) rfl rfl).2.2.2.2⟩

/-- C7: for a threshold `T` below 2^32 - 1, after `Redirect` has completed a
speculation and with only non-branch instructions observed afterwards,
`Rollback` fires for none of the first `T` instructions and fires for the
`T+1`-th one; with `T = 0` it fires for the first instruction observed on the
wrong path. -/
theorem Rollback_timing (c : CONTEXT) (taken : Bool) (ta fa : ADDRINT) (s s1 : State)
    (addrs : List ADDRINT) (a : ADDRINT)
    (hspec : (Rollback (CheckIfOnWrongPath s)).2 = .returned)
    (hT : s.wrong_path_resolution_count < UINT_MOD - 1)
    (hs1 : s1 = (Redirect c taken ta fa s).1) :
    (addrs.length ≤ s.wrong_path_resolution_count → (observe addrs s1).2 = .returned) ∧
    (addrs.length = s.wrong_path_resolution_count →
      (Rollback (CheckIfOnWrongPath (observe addrs s1).1)).2 = .executeAt s1.rollback_ctxt ∧
      (RecordInstrAddr a (observe addrs s1).1).2 = .executeAt s1.rollback_ctxt ∧
      observe (addrs ++ [a]) s1 = RecordInstrAddr a (observe addrs s1).1) ∧
    (s.wrong_path_resolution_count = 0 →
      (RecordInstrAddr a s1).2 = .executeAt s1.rollback_ctxt) := by
  have hst := Redirect_spec_state c taken ta fa s hspec
  rw [← hs1] at hst
  obtain ⟨hf1, hc1, hT1, -⟩ := hst
  have key : ∀ l : List ADDRINT, l.length = s.wrong_path_resolution_count →
      (Rollback (CheckIfOnWrongPath (observe l s1).1)).2 = .executeAt s1.rollback_ctxt ∧
      (RecordInstrAddr a (observe l s1).1).2 = .executeAt s1.rollback_ctxt ∧
      observe (l ++ [a]) s1 = RecordInstrAddr a (observe l s1).1 := by
    intro l hl
    have hp := observe_pass l s1 hf1
      (by rw [hc1, hT1, hl]; unfold UINT at *; omega)
      (by rw [hT1]; unfold UINT at *; omega)
    have hfi := RecordInstrAddr_fire a (observe l s1).1 hp.2.1
      (by rw [hp.2.2.1, hp.2.2.2.1, hc1, hT1, hl]; unfold UINT at *; omega)
      (by rw [hp.2.2.2.1, hT1]; unfold UINT at *; omega)
    have hctx := (observe_ctxt l s1).1
    have hne : (Rollback (CheckIfOnWrongPath (observe l s1).1)).2 ≠ .returned := by
      intro hret
      have := hfi.1
      rw [RecordInstrAddr_of_returned a _ hret] at this
      simp at this
    refine ⟨?_, by rw [hfi.1, hctx], ?_⟩
    · rw [← RecordInstrAddr_of_fired a _ hne, hfi.1, hctx]
    · rw [observe_append_returned l [a] s1 hp.1, observe_singleton]
  refine ⟨?_, key addrs, ?_⟩
  · intro hle
    exact (observe_pass addrs s1 hf1
      (by rw [hc1, hT1]; unfold UINT at *; omega)
      (by rw [hT1]; unfold UINT at *; omega)).1
  · intro h0
    exact (key [] (by rw [h0]; rfl)).2.1

/-- Witness for C7: threshold 3; three instructions pass and the fourth is
rolled back. -/
theorem Rollback_timing_witness :
    (observe [0x1004, 0x1008, 0x100c] (exSpec 3)).2 = .returned ∧
    (RecordInstrAddr 0x1010 (observe [0x1004, 0x1008, 0x100c] (exSpec 3)).1).2 =
      .executeAt (exSpec 3).rollback_ctxt :=
  ⟨(Rollback_timing exCtxt true 0x2000 0x1004 (main 3 exCtxt0) (exSpec 3)
      [0x1004, 0x1008, 0x100c] 0x1010 (by decide) (by decide) rfl).1 (by decide),
   ((Rollback_timing exCtxt true 0x2000 0x1004 (main 3 exCtxt0) (exSpec 3)
      [0x1004, 0x1008, 0x100c] 0x1010 (by decide) (by decide) rfl).2.1 (by decide)).2.1⟩

/-! ## The checkpoint -/

/-- A branch whose embedded `Rollback` fires transfers control to the stored
checkpoint and leaves it in place. -/
theorem Redirect_fired_target (c : CONTEXT) (taken : Bool) (ta fa : ADDRINT) (s : State)
    (h : (Rollback (CheckIfOnWrongPath s)).2 ≠ .returned) :
    (Redirect c taken ta fa s).2 = .executeAt s.rollback_ctxt ∧
    (Redirect c taken ta fa s).1.rollback_ctxt = s.rollback_ctxt := by
  have hfi := (Rollback_fired_iff _).mp h
  rw [Redirect_of_fired c taken ta fa s h, Rollback_fire _ hfi.1 hfi.2]
  have hfr := (CheckIfOnWrongPath_frame s).2.1
  exact ⟨by show Control.executeAt (CheckIfOnWrongPath s).rollback_ctxt = _; rw [hfr], hfr⟩

/-- C6: after `Redirect` has speculated at a branch with live context `c`,
whatever non-branch instructions are observed on the wrong path, the context
`Rollback` transfers control to (from `RecordInstrAddr`, or from the `Redirect`
of a branch reached afterwards) is `c` with the instruction pointer set to the
right-path address and every other register as in `c`; and for a threshold
below 2^32 - 1 the rollback does happen, on the `T+1`-th instruction. -/
theorem checkpoint_round_trip (c : CONTEXT) (taken : Bool) (ta fa : ADDRINT) (s s1 : State)
    (hspec : (Rollback (CheckIfOnWrongPath s)).2 = .returned)
    (hs1 : s1 = (Redirect c taken ta fa s).1) :
    (∀ addrs s2 c2, observe addrs s1 = (s2, .executeAt c2) →
      c2 = { c with inst_ptr := if taken then ta else fa } ∧
      PIN_GetContextReg c2 .REG_INST_PTR = (if taken then ta else fa) ∧
      (∀ i, PIN_GetContextReg c2 (.REG_OTHER i) = PIN_GetContextReg c (.REG_OTHER i)) ∧
      s2.rollback_ctxt = c2) ∧
    (∀ addrs c3 t3 ta3 fa3, (observe addrs s1).2 = .returned →
      (Rollback (CheckIfOnWrongPath (observe addrs s1).1)).2 ≠ .returned →
      (Redirect c3 t3 ta3 fa3 (observe addrs s1).1).2 =
        .executeAt { c with inst_ptr := if taken then ta else fa }) ∧
    (s.wrong_path_resolution_count < UINT_MOD - 1 →
      ∀ addrs, addrs.length = s.wrong_path_resolution_count + 1 →
        (observe addrs s1).2 = .executeAt { c with inst_ptr := if taken then ta else fa }) := by
  have hst := Redirect_spec_state c taken ta fa s hspec
  rw [← hs1] at hst
  obtain ⟨hf1, hc1, hT1, hctx1⟩ := hst
  refine ⟨?_, ?_, ?_⟩
  · intro addrs s2 c2 hobs
    have hoc := observe_ctxt addrs s1
    rw [hobs] at hoc
    have hc2 : c2 = { c with inst_ptr := if taken then ta else fa } := by
      rw [hoc.2 c2 rfl, hctx1]
    refine ⟨hc2, ?_, ?_, ?_⟩
    · rw [hc2]; rfl
    · intro i; rw [hc2]; rfl
    · rw [hoc.2 c2 rfl]; exact hoc.1
  · intro addrs c3 t3 ta3 fa3 _ hfired
    rw [(Redirect_fired_target c3 t3 ta3 fa3 _ hfired).1, (observe_ctxt addrs s1).1, hctx1]
  · intro hT addrs hlen
    have hfire := observe_fire addrs s1 hf1
      (by rw [hc1]; exact Nat.zero_le _)
      (by rw [hc1, hT1, hlen]; unfold UINT at *; omega)
      (by rw [hT1]; unfold UINT at *; omega)
    rw [hfire.1, hctx1]

/-- Witness for C6: threshold 3, the not taken branch at 0x1000 and four
instructions on the wrong path; control resumes at the fallthrough 0x1004 with
the registers of the branch. -/
theorem checkpoint_round_trip_witness :
    (observe [0x2000, 0x2004, 0x2008, 0x200c]
      (Redirect exCtxt false 0x2000 0x1004 (main 3 exCtxt0)).1).2 =
      .executeAt ⟨0x1004, [7, 8]⟩ :=
  (checkpoint_round_trip exCtxt false 0x2000 0x1004 (main 3 exCtxt0) _ (by decide) rfl).2.2
    (by decide) [0x2000, 0x2004, 0x2008, 0x200c] rfl

/-- C9: when a branch is reached on the wrong path before the threshold is
exceeded, `Redirect` resets the counter to 0, keeps the flag true and replaces
`rollback_ctxt` by the right-path context of the new branch; the outcome does
not depend on the previous checkpoint, and a later `Rollback` (from
`RecordInstrAddr`, or from the `Redirect` of a branch reached afterwards)
transfers control to the right-path address of the new branch. -/
theorem respeculation_overwrites_checkpoint (c : CONTEXT) (taken : Bool) (ta fa : ADDRINT)
    (s s1 : State)
    (hf : s.executing_on_wrong_path = true)
    (hle : UINT_incr s.wrong_path_instructions_executed ≤ s.wrong_path_resolution_count)
    (hs1 : s1 = (Redirect c taken ta fa s).1) :
    s1.wrong_path_instructions_executed = 0 ∧
    s1.executing_on_wrong_path = true ∧
    s1.rollback_ctxt = { c with inst_ptr := if taken then ta else fa } ∧
    (∀ c_old, Redirect c taken ta fa { s with rollback_ctxt := c_old } =
      Redirect c taken ta fa s) ∧
    (∀ addrs s2 c2, observe addrs s1 = (s2, .executeAt c2) →
      c2 = { c with inst_ptr := if taken then ta else fa } ∧
      PIN_GetContextReg c2 .REG_INST_PTR = (if taken then ta else fa)) ∧
    (∀ addrs c3 t3 ta3 fa3, (observe addrs s1).2 = .returned →
      (Rollback (CheckIfOnWrongPath (observe addrs s1).1)).2 ≠ .returned →
      (Redirect c3 t3 ta3 fa3 (observe addrs s1).1).2 =
        .executeAt { c with inst_ptr := if taken then ta else fa }) := by
  have hret : ∀ c_old, (Rollback (CheckIfOnWrongPath { s with rollback_ctxt := c_old })).2 =
      .returned := by
    intro c_old
    rw [Rollback_returned_iff,
      CheckIfOnWrongPath_on { s with rollback_ctxt := c_old } hf]
    exact Or.inr hle
  have hspec : (Rollback (CheckIfOnWrongPath s)).2 = .returned := by
    rw [Rollback_returned_iff, CheckIfOnWrongPath_on s hf]
    exact Or.inr hle
  have hst := Redirect_spec_state c taken ta fa s hspec
  rw [← hs1] at hst
  obtain ⟨hf1, hc1, -, hctx1⟩ := hst
  refine ⟨hc1, hf1, hctx1, ?_, ?_, ?_⟩
  · intro c_old
    rw [Redirect_of_returned c taken ta fa _ (hret c_old),
      Redirect_of_returned c taken ta fa s hspec, Redirect_tail_eq, Redirect_tail_eq]
    by_cases h0 : s.first_instr_addr = 0 <;>
      simp [RecordInstrAddr_tail, CheckIfOnWrongPath, emit, hf, h0]
  · intro addrs s2 c2 hobs
    have hoc := observe_ctxt addrs s1
    rw [hobs] at hoc
    have hc2 : c2 = { c with inst_ptr := if taken then ta else fa } := by
      rw [hoc.2 c2 rfl, hctx1]
    exact ⟨hc2, by rw [hc2]; rfl⟩
  · intro addrs c3 t3 ta3 fa3 _ hfired
    rw [(Redirect_fired_target c3 t3 ta3 fa3 _ hfired).1, (observe_ctxt addrs s1).1, hctx1]

/-- Witness for C9: threshold 10; two instructions into the excursion that
follows the branch at 0x1000 (checkpoint 0x2000) a branch at 0x100c is reached
(not taken, fallthrough 0x1010); the checkpoint becomes 0x1010. -/
theorem respeculation_overwrites_checkpoint_witness :
    exTwoIn.wrong_path_instructions_executed = 2 ∧
    exTwoIn.rollback_ctxt = ⟨0x2000, [7, 8]⟩ ∧
    (Redirect exCtxt3 false 0x3000 0x1010 exTwoIn).1.wrong_path_instructions_executed = 0 ∧
    (Redirect exCtxt3 false 0x3000 0x1010 exTwoIn).1.executing_on_wrong_path = true ∧
    (Redirect exCtxt3 false 0x3000 0x1010 exTwoIn).1.rollback_ctxt = ⟨0x1010, [1, 2]⟩ :=
  ⟨by decide, by decide,
   (respeculation_overwrites_checkpoint exCtxt3 false 0x3000 0x1010 exTwoIn _
      (by decide) (by decide) rfl).1,
   (respeculation_overwrites_checkpoint exCtxt3 false 0x3000 0x1010 exTwoIn _
      (by decide) (by decide) rfl).2.1,
   (respeculation_overwrites_checkpoint exCtxt3 false 0x3000 0x1010 exTwoIn _
      (by decide) (by decide) rfl).2.2.1⟩

/-! ## The base address -/

theorem reportAt_append (l ys : List Tok) :
    reportAt (l ++ .endl :: ys) = reportAt (l ++ [.endl]) := by
  match l with
  | [] => simp [reportAt]
  | [t1] => cases t1 <;> simp [reportAt]
  | [t1, t2] => cases t1 <;> cases t2 <;> simp [reportAt]
  | [t1, t2, t3] => cases t1 <;> cases t2 <;> cases t3 <;> simp [reportAt]
  | t1 :: t2 :: t3 :: t4 :: r =>
    cases t1 <;> cases t2 <;> cases t3 <;> cases t4 <;> simp [reportAt]

theorem reports_cons (t : Tok) (rest : List Tok) :
    reports (t :: rest) = (reportAt (t :: rest)).toList ++ reports rest := rfl

theorem reports_append (l ys : List Tok) :
    reports (l ++ .endl :: ys) = reports (l ++ [.endl]) ++ reports ys := by
  induction l with
  | nil => simp [reports, reportAt]
  | cons t r ih =>
    rw [List.cons_append, List.cons_append, reports_cons, reports_cons, ih,
      ← List.cons_append, ← List.cons_append, reportAt_append, List.append_assoc]

theorem reports_rollbackMsg (r f : ADDRINT) :
    reports (rollbackMsg r f) = [(r, ADDRINT_sub r f)] := by
  simp [reports, reportAt, rollbackMsg]

theorem reports_executingMsg (x f : ADDRINT) :
    reports (executingMsg x f) = [(x, ADDRINT_sub x f)] := by
  simp [reports, reportAt, executingMsg]

theorem reports_wrongPathMsg (n : UINT) (x f : ADDRINT) :
    reports (wrongPathMsg n ++ executingMsg x f) = [(x, ADDRINT_sub x f)] := by
  simp [reports, reportAt, executingMsg, wrongPathMsg]

theorem reports_redirectMsg (t : String) (w f : ADDRINT) :
    reports ([Tok.str t, Tok.endl] ++ redirectMsg w f) = [(w, ADDRINT_sub w f)] := by
  simp [reports, reportAt, redirectMsg]

theorem reports_main (n : UINT) (c0 : CONTEXT) : reports (main n c0).out = [] := by
  simp [reports, reportAt, main]

/-- Appending whole lines whose reports are relative to `a` keeps the trace
relative to `a`. -/
theorem TraceInv_append (a : ADDRINT) (s s2 : State) (k : List Tok) (h : TraceInv a s)
    (hout : s2.out = s.out ++ (k ++ [.endl]))
    (hfirst : s2.first_instr_addr = s.first_instr_addr)
    (hrep : ∀ p ∈ reports (k ++ [.endl]), p.2 = ADDRINT_sub p.1 a) :
    TraceInv a s2 := by
  obtain ⟨h1, ⟨l, hl⟩, h3⟩ := h
  refine ⟨by rw [hfirst, h1], ⟨s.out ++ k, by rw [hout, List.append_assoc]⟩, ?_⟩
  intro p hp
  rw [hout, hl, List.append_assoc, List.singleton_append, reports_append, ← hl] at hp
  rcases List.mem_append.mp hp with hp | hp
  · exact h3 p hp
  · exact hrep p hp

theorem TraceInv_CheckIfOnWrongPath (a : ADDRINT) (s : State) (h : TraceInv a s) :
    TraceInv a (CheckIfOnWrongPath s) := by
  have hfr := CheckIfOnWrongPath_frame s
  unfold TraceInv at *
  rw [hfr.2.2.1, hfr.2.2.2.2]
  exact h

theorem TraceInv_Rollback (a : ADDRINT) (s : State) (h : TraceInv a s) :
    TraceInv a (Rollback s).1 := by
  by_cases hc : (Rollback s).2 = .returned
  · rw [Rollback_noop s ((Rollback_returned_iff s).mp hc)]
    exact h
  · have hfi := (Rollback_fired_iff s).mp hc
    rw [Rollback_fire s hfi.1 hfi.2]
    refine TraceInv_append a s _
      (rollbackMsg (PIN_GetContextReg s.rollback_ctxt .REG_INST_PTR) s.first_instr_addr).dropLast
      h rfl rfl ?_
    intro p hp
    have hm : (rollbackMsg (PIN_GetContextReg s.rollback_ctxt .REG_INST_PTR)
        s.first_instr_addr).dropLast ++ [.endl] =
        rollbackMsg (PIN_GetContextReg s.rollback_ctxt .REG_INST_PTR) s.first_instr_addr := rfl
    rw [hm, reports_rollbackMsg, h.1] at hp
    rw [List.mem_singleton.mp hp]

theorem TraceInv_RecordInstrAddr_tail (a x : ADDRINT) (s : State) (ha : a ≠ 0)
    (h : TraceInv a s) : TraceInv a (RecordInstrAddr_tail x s) := by
  have hne : s.first_instr_addr ≠ 0 := by rw [h.1]; exact ha
  by_cases hf : s.executing_on_wrong_path = true
  · refine TraceInv_append a s _
      (wrongPathMsg s.wrong_path_instructions_executed ++ (executingMsg x a).dropLast) h ?_ ?_ ?_
    · simp [RecordInstrAddr_tail, emit, ha, hf, h.1, executingMsg]
    · simp [RecordInstrAddr_tail, emit, hne, hf]
    · intro p hp
      have hm : (wrongPathMsg s.wrong_path_instructions_executed ++ (executingMsg x a).dropLast)
          ++ [.endl] = wrongPathMsg s.wrong_path_instructions_executed ++ executingMsg x a := rfl
      rw [hm, reports_wrongPathMsg] at hp
      rw [List.mem_singleton.mp hp]
  · refine TraceInv_append a s _ (executingMsg x a).dropLast h ?_ ?_ ?_
    · simp [RecordInstrAddr_tail, emit, ha, hf, h.1, executingMsg]
    · simp [RecordInstrAddr_tail, emit, hne, hf]
    · intro p hp
      have hm : (executingMsg x a).dropLast ++ [.endl] = executingMsg x a := rfl
      rw [hm, reports_executingMsg] at hp
      rw [List.mem_singleton.mp hp]

theorem TraceInv_Redirect_tail (a : ADDRINT) (c : CONTEXT) (taken : Bool) (ta fa : ADDRINT)
    (s : State) (h : TraceInv a s) : TraceInv a (Redirect_tail c taken ta fa s).1 := by
  rw [Redirect_tail_eq]
  refine TraceInv_append a s _
    ([.str (if taken then "Taken branch" else "Not taken branch"), .endl] ++
      (redirectMsg (wrong_path_addr taken ta fa) a).dropLast) h ?_ rfl ?_
  · simp [h.1, redirectMsg]
  · intro p hp
    have hm : ([Tok.str (if taken then "Taken branch" else "Not taken branch"), Tok.endl] ++
        (redirectMsg (wrong_path_addr taken ta fa) a).dropLast) ++ [.endl] =
        [Tok.str (if taken then "Taken branch" else "Not taken branch"), Tok.endl] ++
          redirectMsg (wrong_path_addr taken ta fa) a := rfl
    rw [hm, reports_redirectMsg] at hp
    rw [List.mem_singleton.mp hp]

theorem TraceInv_RecordInstrAddr (a x : ADDRINT) (s : State) (ha : a ≠ 0)
    (h : TraceInv a s) : TraceInv a (RecordInstrAddr x s).1 := by
  by_cases hc : (Rollback (CheckIfOnWrongPath s)).2 = .returned
  · rw [RecordInstrAddr_of_returned x s hc]
    exact TraceInv_RecordInstrAddr_tail a x _ ha (TraceInv_CheckIfOnWrongPath a s h)
  · rw [RecordInstrAddr_of_fired x s hc]
    exact TraceInv_Rollback a _ (TraceInv_CheckIfOnWrongPath a s h)

theorem TraceInv_Redirect (a : ADDRINT) (c : CONTEXT) (taken : Bool) (ta fa : ADDRINT)
    (s : State) (ha : a ≠ 0) (h : TraceInv a s) :
    TraceInv a (Redirect c taken ta fa s).1 := by
  by_cases hc : (Rollback (CheckIfOnWrongPath s)).2 = .returned
  · rw [Redirect_of_returned c taken ta fa s hc]
    exact TraceInv_Redirect_tail a c taken ta fa _
      (TraceInv_RecordInstrAddr_tail a _ _ ha (TraceInv_CheckIfOnWrongPath a s h))
  · rw [Redirect_of_fired c taken ta fa s hc]
    exact TraceInv_Rollback a _ (TraceInv_CheckIfOnWrongPath a s h)

theorem TraceInv_runSteps (a : ADDRINT) (steps : List Step) (s : State) (ha : a ≠ 0)
    (h : TraceInv a s) : TraceInv a (runSteps steps s) := by
  induction steps generalizing s with
  | nil => exact h
  | cons st rest ih =>
    apply ih
    cases st with
    | checkIfOnWrongPath => exact TraceInv_CheckIfOnWrongPath a s h
    | rollback => exact TraceInv_Rollback a s h
    | recordInstrAddr x => exact TraceInv_RecordInstrAddr a x s ha h
    | redirect c t ta fa => exact TraceInv_Redirect a c t ta fa s ha h

/-- The first observation made from the state `main` leaves behind sets the
base address. -/
theorem TraceInv_first (n : UINT) (c0 : CONTEXT) (a : ADDRINT) :
    RecordInstrAddr a (main n c0) = (RecordInstrAddr_tail a (main n c0), .returned) ∧
    TraceInv a (RecordInstrAddr_tail a (main n c0)) := by
  constructor
  · rw [RecordInstrAddr_of_returned a _ (Rollback_returned_of_off _ rfl)]
    rfl
  · refine ⟨?_, ?_, ?_⟩
    · simp [RecordInstrAddr_tail, emit, main]
    · exact ⟨(main n c0).out ++ (executingMsg a a).dropLast, by
        simp [RecordInstrAddr_tail, emit, main, executingMsg]⟩
    · intro p hp
      have hout : (RecordInstrAddr_tail a (main n c0)).out =
          (main n c0).out.dropLast ++ Tok.endl :: executingMsg a a := by
        simp [RecordInstrAddr_tail, emit, main]
      have hm : (main n c0).out.dropLast ++ [Tok.endl] = (main n c0).out := rfl
      rw [hout, reports_append, hm, reports_main, reports_executingMsg, List.nil_append] at hp
      rw [List.mem_singleton.mp hp]

theorem ADDRINT_sub_self (a : ADDRINT) : ADDRINT_sub a a = 0 := by
  unfold ADDRINT_sub
  have h : a % ADDRINT_MOD < ADDRINT_MOD := Nat.mod_lt _ (by unfold ADDRINT_MOD; norm_num)
  rw [Nat.add_sub_cancel' (Nat.le_of_lt h), Nat.mod_self]

theorem ADDRINT_sub_of_le (x a : ADDRINT) (h : a ≤ x) (hx : x < ADDRINT_MOD) :
    ADDRINT_sub x a = x - a := by
  unfold ADDRINT_sub
  have ha : a < ADDRINT_MOD := Nat.lt_of_le_of_lt h hx
  rw [Nat.mod_eq_of_lt hx, Nat.mod_eq_of_lt ha]
  have e : x + (ADDRINT_MOD - a) = (x - a) + ADDRINT_MOD := by
    unfold ADDRINT at *; omega
  rw [e, Nat.add_mod_right]
  exact Nat.mod_eq_of_lt (by unfold ADDRINT at *; omega)

/-- An instruction that is traced adds exactly one report, relative to the
base address. -/
theorem reports_RecordInstrAddr (a x : ADDRINT) (s : State) (ha : a ≠ 0) (h : TraceInv a s)
    (hret : (RecordInstrAddr x s).2 = .returned) :
    reports (RecordInstrAddr x s).1.out = reports s.out ++ [(x, ADDRINT_sub x a)] := by
  have hc : (Rollback (CheckIfOnWrongPath s)).2 = .returned := by
    by_contra hne
    have hfi := (Rollback_fired_iff _).mp hne
    rw [RecordInstrAddr_of_fired x s hne, Rollback_fire _ hfi.1 hfi.2] at hret
    simp at hret
  rw [RecordInstrAddr_of_returned x s hc]
  have hfr := CheckIfOnWrongPath_frame s
  obtain ⟨h1, ⟨l, hl⟩, -⟩ := h
  have hfirst : (CheckIfOnWrongPath s).first_instr_addr = a := by rw [hfr.2.2.1, h1]
  by_cases hf : (CheckIfOnWrongPath s).executing_on_wrong_path = true
  · have hout : (RecordInstrAddr_tail x (CheckIfOnWrongPath s)).out =
        l ++ Tok.endl :: (wrongPathMsg (CheckIfOnWrongPath s).wrong_path_instructions_executed ++
          executingMsg x a) := by
      simp [RecordInstrAddr_tail, emit, ha, hf, hfirst, hfr.2.2.2.2, hl]
    show reports (RecordInstrAddr_tail x (CheckIfOnWrongPath s)).out = _
    rw [hout, reports_append, reports_wrongPathMsg, hl]
  · have hout : (RecordInstrAddr_tail x (CheckIfOnWrongPath s)).out =
        l ++ Tok.endl :: executingMsg x a := by
      simp [RecordInstrAddr_tail, emit, ha, hf, hfirst, hfr.2.2.2.2, hl]
    show reports (RecordInstrAddr_tail x (CheckIfOnWrongPath s)).out = _
    rw [hout, reports_append, reports_executingMsg, hl]

/-- C10 as stated fails for the address 0, which the code uses for "not yet
set": after the observations 0 and then 0x1004 the base address is 0x1004,
changed by the second observation, and the offset reported for 0x1004 is 0,
not 0x1004 minus the first observed address. -/
theorem first_observation_wins_counterexample :
    (Step.recordInstrAddr 0).addr = some 0 ∧
    ((Step.recordInstrAddr 0).apply (main 0 exCtxt0)).first_instr_addr = 0 ∧
    (runSteps [.recordInstrAddr 0x1004]
      ((Step.recordInstrAddr 0).apply (main 0 exCtxt0))).first_instr_addr = 0x1004 ∧
    reports (runSteps [.recordInstrAddr 0x1004]
      ((Step.recordInstrAddr 0).apply (main 0 exCtxt0))).out = [(0, 0), (0x1004, 0)] ∧
    ADDRINT_sub 0x1004 0 ≠ 0 := by
  decide

/-- C10, amended: when the first observed instruction address `a` is not 0
(observed by `RecordInstrAddr` or by `Redirect`), `first_instr_addr` is `a`
after the first observation and after every later sequence of calls of the
routines, every offset reported in the trace is the reported address minus `a`
in `ADDRINT` arithmetic, and every later traced instruction adds exactly one
such report; the first address itself gets offset 0. -/
theorem first_observation_wins (n : UINT) (c0 : CONTEXT) (first : Step) (a : ADDRINT)
    (steps : List Step) (hfirst : first.addr = some a) (ha : a ≠ 0) :
    (first.apply (main n c0)).first_instr_addr = a ∧
    (runSteps steps (first.apply (main n c0))).first_instr_addr = a ∧
    (∀ p ∈ reports (runSteps steps (first.apply (main n c0))).out,
      p.2 = ADDRINT_sub p.1 a) ∧
    (∀ x, (RecordInstrAddr x (runSteps steps (first.apply (main n c0)))).2 = .returned →
      reports (RecordInstrAddr x (runSteps steps (first.apply (main n c0)))).1.out =
        reports (runSteps steps (first.apply (main n c0))).out ++ [(x, ADDRINT_sub x a)]) ∧
    ADDRINT_sub a a = 0 ∧
    (∀ x, a ≤ x → x < ADDRINT_MOD → ADDRINT_sub x a = x - a) := by
  have h0 : TraceInv a (first.apply (main n c0)) := by
    have hf := TraceInv_first n c0 a
    cases first with
    | checkIfOnWrongPath => simp [Step.addr] at hfirst
    | rollback => simp [Step.addr] at hfirst
    | recordInstrAddr x =>
      simp only [Step.addr, Option.some.injEq] at hfirst
      subst hfirst
      simp only [Step.apply]
      rw [hf.1]
      exact hf.2
    | redirect c t ta fa =>
      simp only [Step.addr, Option.some.injEq] at hfirst
      simp only [Step.apply]
      have hc : CheckIfOnWrongPath (main n c0) = main n c0 := rfl
      rw [Redirect_of_returned c t ta fa _ (Rollback_returned_of_off _ rfl), hfirst, hc]
      exact TraceInv_Redirect_tail a c t ta fa _ hf.2
  have hs := TraceInv_runSteps a steps _ ha h0
  refine ⟨h0.1, hs.1, hs.2.2, ?_, ADDRINT_sub_self a, fun x => ADDRINT_sub_of_le x a⟩
  intro x hret
  exact reports_RecordInstrAddr a x _ ha hs hret

/-- Witness for C10, amended: the program starts with a branch at 0x1000,
which is redirected; one wrong-path instruction is traced with threshold 3 and
a second one, at 0x1008, is reported with offset 8. -/
theorem first_observation_wins_witness :
    (runSteps [.recordInstrAddr 0x1004]
      ((Step.redirect exCtxt true 0x2000 0x1004).apply (main 3 exCtxt0))).first_instr_addr
      = 0x1000 ∧
    reports (RecordInstrAddr 0x1008 (runSteps [.recordInstrAddr 0x1004]
        ((Step.redirect exCtxt true 0x2000 0x1004).apply (main 3 exCtxt0)))).1.out =
      reports (runSteps [.recordInstrAddr 0x1004]
        ((Step.redirect exCtxt true 0x2000 0x1004).apply (main 3 exCtxt0))).out ++
        [(0x1008, ADDRINT_sub 0x1008 0x1000)] ∧
    ADDRINT_sub 0x1008 0x1000 = 0x1008 - 0x1000 :=
  ⟨(first_observation_wins 3 exCtxt0 (.redirect exCtxt true 0x2000 0x1004) 0x1000
      [.recordInstrAddr 0x1004] rfl (by decide)).2.1,
   (first_observation_wins 3 exCtxt0 (.redirect exCtxt true 0x2000 0x1004) 0x1000
      [.recordInstrAddr 0x1004] rfl (by decide)).2.2.2.1 0x1008 (by decide),
   (first_observation_wins 3 exCtxt0 (.redirect exCtxt true 0x2000 0x1004) 0x1000
      [.recordInstrAddr 0x1004] rfl (by decide)).2.2.2.2.2 0x1008 (by decide) (by decide)⟩

/-! ## Entering and leaving the wrong path -/

theorem runSteps_cons (st : Step) (rest : List Step) (s : State) :
    runSteps (st :: rest) s = runSteps rest (st.apply s) := rfl

theorem observe_eq_runSteps (addrs : List ADDRINT) (s : State)
    (h : (observe addrs s).2 = .returned) :
    (observe addrs s).1 = runSteps (addrs.map Step.recordInstrAddr) s := by
  induction addrs generalizing s with
  | nil => rfl
  | cons a rest ih =>
    by_cases hb : (RecordInstrAddr a s).2 = .returned
    · rw [observe_cons_returned a rest s hb] at h ⊢
      exact ih _ h
    · rw [observe_cons_fired a rest s hb] at h
      exact absurd h hb

/-- With the largest threshold a `UINT` holds, 2^32 - 1 instructions on the
wrong path lead to a reachable state whose counter equals the threshold. -/
theorem reachable_counter_at_max :
    ∃ s, Reachable s ∧ s.executing_on_wrong_path = true ∧
      s.wrong_path_instructions_executed = 2 ^ 32 - 1 ∧
      s.wrong_path_resolution_count = 2 ^ 32 - 1 := by
  have hf : (exSpec (2 ^ 32 - 1)).executing_on_wrong_path = true := by decide
  have hc : (exSpec (2 ^ 32 - 1)).wrong_path_instructions_executed = 0 := by decide
  have hT : (exSpec (2 ^ 32 - 1)).wrong_path_resolution_count = 2 ^ 32 - 1 := by decide
  have hp := observe_pass (List.replicate (2 ^ 32 - 1) 0x1004) (exSpec (2 ^ 32 - 1)) hf
    (by rw [hc, hT, List.length_replicate, Nat.zero_add])
    (by rw [hT]; unfold UINT_MOD; norm_num)
  rw [hc, hT, List.length_replicate, Nat.zero_add] at hp
  have hstart : (Step.redirect exCtxt true 0x2000 0x1004).apply (main (2 ^ 32 - 1) exCtxt0) =
      exSpec (2 ^ 32 - 1) := rfl
  have hrun : runSteps (Step.redirect exCtxt true 0x2000 0x1004 ::
        (List.replicate (2 ^ 32 - 1) 0x1004).map Step.recordInstrAddr)
      (main (2 ^ 32 - 1) exCtxt0) =
      (observe (List.replicate (2 ^ 32 - 1) 0x1004) (exSpec (2 ^ 32 - 1))).1 := by
    rw [runSteps_cons, hstart]
    exact (observe_eq_runSteps _ _ hp.1).symm
  exact ⟨(observe (List.replicate (2 ^ 32 - 1) 0x1004) (exSpec (2 ^ 32 - 1))).1,
    ⟨2 ^ 32 - 1, exCtxt0, _, hrun⟩, hp.2.1, hp.2.2.1, hp.2.2.2.1⟩

/-- C11: from every state with the flag false, every invocation of `Redirect`
ends with the flag true, and `RecordInstrAddr`, `CheckIfOnWrongPath` and
`Rollback` leave the flag false. -/
theorem wrong_path_entry_only_by_Redirect (s : State)
    (hoff : s.executing_on_wrong_path = false) :
    (∀ c taken ta fa, (Redirect c taken ta fa s).1.executing_on_wrong_path = true) ∧
    (∀ addr, (RecordInstrAddr addr s).1.executing_on_wrong_path = false) ∧
    (CheckIfOnWrongPath s).executing_on_wrong_path = false ∧
    (Rollback s).1.executing_on_wrong_path = false := by
  have hret := Rollback_returned_of_off s hoff
  have hchk : (CheckIfOnWrongPath s).executing_on_wrong_path = false := by
    rw [(CheckIfOnWrongPath_frame s).1]; exact hoff
  refine ⟨?_, ?_, hchk, ?_⟩
  · intro c taken ta fa
    exact (Redirect_spec_state c taken ta fa s hret).1
  · intro addr
    rw [RecordInstrAddr_of_returned addr s hret]
    show (RecordInstrAddr_tail addr (CheckIfOnWrongPath s)).executing_on_wrong_path = false
    rw [(RecordInstrAddr_tail_frame addr _).1]
    exact hchk
  · rw [Rollback_noop s (Or.inl hoff)]
    exact hoff

/-- Witness for C11: the state left by `main`. -/
theorem wrong_path_entry_only_by_Redirect_witness :
    (Redirect exCtxt false 0x2000 0x1004 (main 5 exCtxt0)).1.executing_on_wrong_path = true ∧
    (RecordInstrAddr 0x1000 (main 5 exCtxt0)).1.executing_on_wrong_path = false :=
  ⟨(wrong_path_entry_only_by_Redirect (main 5 exCtxt0) rfl).1 exCtxt false 0x2000 0x1004,
   (wrong_path_entry_only_by_Redirect (main 5 exCtxt0) rfl).2.1 0x1000⟩

/-- The flag after `Rollback`: it stays as it was when `Rollback` returns and
is false when it fires. -/
theorem Rollback_fired_of_exit (s : State) (hon : s.executing_on_wrong_path = true)
    (hoff : (Rollback s).1.executing_on_wrong_path = false) :
    (Rollback s).2 ≠ .returned := by
  intro hret
  rw [Rollback_noop s ((Rollback_returned_iff s).mp hret)] at hoff
  rw [hon] at hoff
  exact absurd hoff (by decide)

/-- C12: whenever `RecordInstrAddr` or `Redirect` takes the flag from true to
false, `Rollback` fired in that call: the incremented counter exceeded the
threshold and the call left through `PIN_ExecuteAt` on `rollback_ctxt`. -/
theorem wrong_path_exit_only_by_Rollback (s : State)
    (hon : s.executing_on_wrong_path = true) :
    (∀ addr, (RecordInstrAddr addr s).1.executing_on_wrong_path = false →
      (Rollback (CheckIfOnWrongPath s)).2 ≠ .returned ∧
      s.wrong_path_resolution_count < UINT_incr s.wrong_path_instructions_executed ∧
      (RecordInstrAddr addr s).2 = .executeAt s.rollback_ctxt) ∧
    (∀ c taken ta fa, (Redirect c taken ta fa s).1.executing_on_wrong_path = false →
      (Rollback (CheckIfOnWrongPath s)).2 ≠ .returned ∧
      s.wrong_path_resolution_count < UINT_incr s.wrong_path_instructions_executed ∧
      (Redirect c taken ta fa s).2 = .executeAt s.rollback_ctxt) := by
  have hchk := CheckIfOnWrongPath_on s hon
  have key : (Rollback (CheckIfOnWrongPath s)).2 ≠ .returned →
      s.wrong_path_resolution_count < UINT_incr s.wrong_path_instructions_executed := by
    intro hne
    have := ((Rollback_fired_iff _).mp hne).2
    rw [hchk] at this
    exact this
  constructor
  · intro addr hoff
    have hne : (Rollback (CheckIfOnWrongPath s)).2 ≠ .returned := by
      intro hret
      rw [RecordInstrAddr_of_returned addr s hret] at hoff
      have h2 : (RecordInstrAddr_tail addr (CheckIfOnWrongPath s)).executing_on_wrong_path
          = false := hoff
      rw [(RecordInstrAddr_tail_frame addr _).1, (CheckIfOnWrongPath_frame s).1, hon] at h2
      exact absurd h2 (by decide)
    refine ⟨hne, key hne, ?_⟩
    have hfi := (Rollback_fired_iff _).mp hne
    rw [RecordInstrAddr_of_fired addr s hne, Rollback_fire _ hfi.1 hfi.2]
    show Control.executeAt (CheckIfOnWrongPath s).rollback_ctxt = _
    rw [(CheckIfOnWrongPath_frame s).2.1]
  · intro c taken ta fa hoff
    have hne : (Rollback (CheckIfOnWrongPath s)).2 ≠ .returned := by
      intro hret
      rw [(Redirect_spec_state c taken ta fa s hret).1] at hoff
      exact absurd hoff (by decide)
    exact ⟨hne, key hne, (Redirect_fired_target c taken ta fa s hne).1⟩

/-- Witness for C12: the first wrong-path instruction with threshold 0. -/
theorem wrong_path_exit_only_by_Rollback_witness :
    (0 : Nat) < UINT_incr (exSpec 0).wrong_path_instructions_executed ∧
    (RecordInstrAddr 0x1004 (exSpec 0)).2 = .executeAt (exSpec 0).rollback_ctxt :=
  ⟨((wrong_path_exit_only_by_Rollback (exSpec 0) (by decide)).1 0x1004 (by decide)).2.1,
   ((wrong_path_exit_only_by_Rollback (exSpec 0) (by decide)).1 0x1004 (by decide)).2.2⟩

/-! ## The observer -/

theorem UINT_incr_max : UINT_incr (2 ^ 32 - 1) = 0 := by decide

/-- C13 as stated fails at the largest value of the counter: from 2^32 - 1 the
32-bit increment gives 0, not the old value plus one.  The state `exAtMax`
shows it, and so does a state reached with threshold 2^32 - 1. -/
theorem CheckIfOnWrongPath_contract_counterexample :
    exAtMax.executing_on_wrong_path = true ∧
    exAtMax.wrong_path_instructions_executed = 2 ^ 32 - 1 ∧
    (CheckIfOnWrongPath exAtMax).wrong_path_instructions_executed = 0 ∧
    (CheckIfOnWrongPath exAtMax).wrong_path_instructions_executed ≠
      exAtMax.wrong_path_instructions_executed + 1 ∧
    (∃ s, Reachable s ∧ s.executing_on_wrong_path = true ∧
      s.wrong_path_instructions_executed = 2 ^ 32 - 1 ∧
      (CheckIfOnWrongPath s).wrong_path_instructions_executed = 0) := by
  refine ⟨by decide, by decide, by decide, by decide, ?_⟩
  obtain ⟨s, hr, hf, hc, -⟩ := reachable_counter_at_max
  refine ⟨s, hr, hf, hc, ?_⟩
  rw [CheckIfOnWrongPath_on s hf]
  show UINT_incr s.wrong_path_instructions_executed = 0
  rw [hc]
  exact UINT_incr_max

/-- C13, amended: `CheckIfOnWrongPath` sets the counter to its old value plus
one modulo 2^32 when the flag is true (the old value plus one whenever the old
value is below 2^32 - 1) and to 0 otherwise, and changes nothing else: the
flag, `rollback_ctxt`, `first_instr_addr`, the threshold and the trace are as
before. -/
theorem CheckIfOnWrongPath_contract (s : State) :
    (s.executing_on_wrong_path = true →
      (CheckIfOnWrongPath s).wrong_path_instructions_executed =
        (s.wrong_path_instructions_executed + 1) % 2 ^ 32) ∧
    (s.executing_on_wrong_path = true → s.wrong_path_instructions_executed < 2 ^ 32 - 1 →
      (CheckIfOnWrongPath s).wrong_path_instructions_executed =
        s.wrong_path_instructions_executed + 1) ∧
    (s.executing_on_wrong_path = false →
      (CheckIfOnWrongPath s).wrong_path_instructions_executed = 0) ∧
    (CheckIfOnWrongPath s).executing_on_wrong_path = s.executing_on_wrong_path ∧
    (CheckIfOnWrongPath s).rollback_ctxt = s.rollback_ctxt ∧
    (CheckIfOnWrongPath s).first_instr_addr = s.first_instr_addr ∧
    (CheckIfOnWrongPath s).wrong_path_resolution_count = s.wrong_path_resolution_count ∧
    (CheckIfOnWrongPath s).out = s.out ∧
    CheckIfOnWrongPath s =
      { s with wrong_path_instructions_executed :=
          if s.executing_on_wrong_path then (s.wrong_path_instructions_executed + 1) % 2 ^ 32
          else 0 } := by
  have hfr := CheckIfOnWrongPath_frame s
  refine ⟨?_, ?_, ?_, hfr.1, hfr.2.1, hfr.2.2.1, hfr.2.2.2.1, hfr.2.2.2.2, ?_⟩
  · intro hf
    rw [CheckIfOnWrongPath_on s hf]
    rfl
  · intro hf hlt
    rw [CheckIfOnWrongPath_on s hf]
    exact UINT_incr_of_lt _ (by unfold UINT_MOD; unfold UINT at *; omega)
  · intro hf
    rw [CheckIfOnWrongPath_off s hf]
  · by_cases hf : s.executing_on_wrong_path = true
    · rw [CheckIfOnWrongPath_on s hf]
      simp [hf, UINT_incr, UINT_MOD]
    · have hf2 : s.executing_on_wrong_path = false := by simpa using hf
      rw [CheckIfOnWrongPath_off s hf2]
      simp [hf2]

/-- Witness for C13, amended: two instructions into a wrong-path excursion the
counter goes from 2 to 3; on the state left by `main` it is set to 0. -/
theorem CheckIfOnWrongPath_contract_witness :
    (CheckIfOnWrongPath exTwoIn).wrong_path_instructions_executed =
      exTwoIn.wrong_path_instructions_executed + 1 ∧
    (CheckIfOnWrongPath (main 10 exCtxt0)).wrong_path_instructions_executed = 0 :=
  ⟨(CheckIfOnWrongPath_contract exTwoIn).2.1 (by decide) (by decide),
   (CheckIfOnWrongPath_contract (main 10 exCtxt0)).2.2.1 rfl⟩

/-! ## The trace of one instruction -/

theorem RecordInstrAddr_tail_out (addr : ADDRINT) (s : State) :
    (RecordInstrAddr_tail addr s).first_instr_addr =
      (if s.first_instr_addr = 0 then addr else s.first_instr_addr) ∧
    (RecordInstrAddr_tail addr s).out =
      s.out ++ (if s.executing_on_wrong_path then
          wrongPathMsg s.wrong_path_instructions_executed else []) ++
        executingMsg addr (if s.first_instr_addr = 0 then addr else s.first_instr_addr) := by
  unfold RecordInstrAddr_tail emit
  by_cases h1 : s.first_instr_addr = 0 <;> by_cases h2 : s.executing_on_wrong_path = true <;>
    simp [h1, h2]

/-- C14 as stated fails: the first wrong-path instruction with threshold 0 is
observed by `RecordInstrAddr`, yet no `Executing instruction` line is written
for it, because `Rollback` leaves through `PIN_ExecuteAt` first. -/
theorem RecordInstrAddr_trace_counterexample :
    (RecordInstrAddr 0x1004 (exSpec 0)).2 = .executeAt ⟨0x2000, [7, 8]⟩ ∧
    executingLines (RecordInstrAddr 0x1004 (exSpec 0)).1.out = executingLines (exSpec 0).out ∧
    executingLines (RecordInstrAddr 0x1004 (exSpec 0)).1.out ≠
      executingLines (exSpec 0).out + 1 := by
  decide

/-- C14, amended: when `Rollback` does not fire, `RecordInstrAddr` with address
`a` appends exactly one `Executing instruction` line, holding `a` and the
offset of `a` from `first_instr_addr` (which is `a` itself when it was not yet
set), preceded by the wrong-path annotation with the current counter if and
only if the flag is true at that moment; when `Rollback` fires, only the
rollback message is written and no `Executing instruction` line. -/
theorem RecordInstrAddr_trace (a : ADDRINT) (s : State) :
    ((Rollback (CheckIfOnWrongPath s)).2 = .returned →
      (RecordInstrAddr a s).1.out =
        s.out ++ (if (RecordInstrAddr a s).1.executing_on_wrong_path then
            wrongPathMsg (RecordInstrAddr a s).1.wrong_path_instructions_executed else []) ++
          executingMsg a (RecordInstrAddr a s).1.first_instr_addr ∧
      (RecordInstrAddr a s).1.first_instr_addr =
        (if s.first_instr_addr = 0 then a else s.first_instr_addr) ∧
      executingLines (RecordInstrAddr a s).1.out = executingLines s.out + 1 ∧
      wrongPathLines (RecordInstrAddr a s).1.out =
        wrongPathLines s.out +
          (if (RecordInstrAddr a s).1.executing_on_wrong_path then 1 else 0) ∧
      reports (executingMsg a (RecordInstrAddr a s).1.first_instr_addr) =
        [(a, ADDRINT_sub a (RecordInstrAddr a s).1.first_instr_addr)]) ∧
    ((Rollback (CheckIfOnWrongPath s)).2 ≠ .returned →
      (RecordInstrAddr a s).1.out =
        s.out ++ rollbackMsg (PIN_GetContextReg s.rollback_ctxt .REG_INST_PTR)
          s.first_instr_addr ∧
      executingLines (RecordInstrAddr a s).1.out = executingLines s.out ∧
      wrongPathLines (RecordInstrAddr a s).1.out = wrongPathLines s.out) := by
  have hfr := CheckIfOnWrongPath_frame s
  constructor
  · intro hret
    rw [RecordInstrAddr_of_returned a s hret]
    have ho := RecordInstrAddr_tail_out a (CheckIfOnWrongPath s)
    have ht := RecordInstrAddr_tail_frame a (CheckIfOnWrongPath s)
    have hc := RecordInstrAddr_tail_counts a (CheckIfOnWrongPath s)
    rw [hfr.2.2.1, hfr.2.2.2.2] at ho
    rw [hfr.2.2.2.2] at hc
    refine ⟨?_, ho.1, hc.2.1, ?_, reports_executingMsg _ _⟩
    · show (RecordInstrAddr_tail a (CheckIfOnWrongPath s)).out =
        s.out ++ (if (RecordInstrAddr_tail a (CheckIfOnWrongPath s)).executing_on_wrong_path
            then wrongPathMsg
              (RecordInstrAddr_tail a (CheckIfOnWrongPath s)).wrong_path_instructions_executed
            else []) ++
          executingMsg a (RecordInstrAddr_tail a (CheckIfOnWrongPath s)).first_instr_addr
      rw [ho.2, ho.1, ht.1, ht.2.2.1]
    · show wrongPathLines (RecordInstrAddr_tail a (CheckIfOnWrongPath s)).out =
        wrongPathLines s.out +
          (if (RecordInstrAddr_tail a (CheckIfOnWrongPath s)).executing_on_wrong_path
            then 1 else 0)
      rw [hc.1, ht.1]
  · intro hne
    have hfi := (Rollback_fired_iff _).mp hne
    rw [RecordInstrAddr_of_fired a s hne, Rollback_fire _ hfi.1 hfi.2]
    have hm := rollbackMsg_counts
      (PIN_GetContextReg s.rollback_ctxt .REG_INST_PTR) s.first_instr_addr
    refine ⟨?_, ?_, ?_⟩
    · show (CheckIfOnWrongPath s).out ++ rollbackMsg
        (PIN_GetContextReg (CheckIfOnWrongPath s).rollback_ctxt .REG_INST_PTR)
        (CheckIfOnWrongPath s).first_instr_addr = _
      rw [hfr.2.2.2.2, hfr.2.1, hfr.2.2.1]
    · show executingLines ((CheckIfOnWrongPath s).out ++ rollbackMsg
        (PIN_GetContextReg (CheckIfOnWrongPath s).rollback_ctxt .REG_INST_PTR)
        (CheckIfOnWrongPath s).first_instr_addr) = _
      rw [hfr.2.2.2.2, hfr.2.1, hfr.2.2.1]
      unfold executingLines at hm ⊢
      rw [List.count_append, hm.2.1]; rfl
    · show wrongPathLines ((CheckIfOnWrongPath s).out ++ rollbackMsg
        (PIN_GetContextReg (CheckIfOnWrongPath s).rollback_ctxt .REG_INST_PTR)
        (CheckIfOnWrongPath s).first_instr_addr) = _
      rw [hfr.2.2.2.2, hfr.2.1, hfr.2.2.1]
      unfold wrongPathLines at hm ⊢
      rw [List.count_append, hm.1]; rfl

/-- Witness for C14, amended: the second wrong-path instruction with threshold
10 is traced with the annotation and counter 3; the first wrong-path
instruction with threshold 0 is not traced. -/
theorem RecordInstrAddr_trace_witness :
    (RecordInstrAddr 0x100c exTwoIn).1.out =
      exTwoIn.out ++ wrongPathMsg 3 ++ executingMsg 0x100c 0x1000 ∧
    executingLines (RecordInstrAddr 0x1004 (exSpec 0)).1.out = executingLines (exSpec 0).out :=
  ⟨((RecordInstrAddr_trace 0x100c exTwoIn).1 (by decide)).1,
   ((RecordInstrAddr_trace 0x1004 (exSpec 0)).2 (by decide)).2.1⟩

/-! ## A branch met when the counter has reached the threshold -/

theorem Rollback_returned_at_max (s : State)
    (hT : s.wrong_path_resolution_count = UINT_MOD - 1) :
    (Rollback (CheckIfOnWrongPath s)).2 = .returned := by
  by_contra hne
  have h1 := (RecordInstrAddr_max_threshold 0 s hT).1
  rw [RecordInstrAddr_of_fired 0 s hne] at h1
  exact hne h1

/-- C17 as stated fails at the largest threshold: with threshold and counter
both 2^32 - 1 the increment wraps to 0, the embedded `Rollback` does not fire,
and `Redirect` speculates anew: the flag stays true, the checkpoint 0x2000 is
overwritten by 0x1008, control goes to the wrong-path address 0x3000 and a
`Not taken branch` line is written.  The state `exAtMax` shows it, and so does
a state reached with threshold 2^32 - 1. -/
theorem Redirect_preempted_by_Rollback_counterexample :
    exAtMax.executing_on_wrong_path = true ∧
    exAtMax.wrong_path_instructions_executed = exAtMax.wrong_path_resolution_count ∧
    exAtMax.rollback_ctxt = ⟨0x2000, [7, 8]⟩ ∧
    (Redirect exCtxt2 false 0x3000 0x1008 exAtMax).2 = .executeAt ⟨0x3000, [7, 9]⟩ ∧
    (Redirect exCtxt2 false 0x3000 0x1008 exAtMax).1.executing_on_wrong_path = true ∧
    (Redirect exCtxt2 false 0x3000 0x1008 exAtMax).1.rollback_ctxt = ⟨0x1008, [7, 9]⟩ ∧
    branchLines (Redirect exCtxt2 false 0x3000 0x1008 exAtMax).1.out =
      branchLines exAtMax.out + 1 ∧
    (∃ s, Reachable s ∧ s.executing_on_wrong_path = true ∧
      s.wrong_path_instructions_executed = s.wrong_path_resolution_count ∧
      (Redirect exCtxt2 false 0x3000 0x1008 s).1.executing_on_wrong_path = true ∧
      (Redirect exCtxt2 false 0x3000 0x1008 s).1.rollback_ctxt = ⟨0x1008, [7, 9]⟩) := by
  refine ⟨by decide, by decide, by decide, by decide, by decide, by decide, by decide, ?_⟩
  obtain ⟨s, hr, hf, hc, hT⟩ := reachable_counter_at_max
  have hst := Redirect_spec_state exCtxt2 false 0x3000 0x1008 s
    (Rollback_returned_at_max s (by rw [hT]; rfl))
  exact ⟨s, hr, hf, by rw [hc, hT], hst.1, hst.2.2.2⟩

/-- C17, amended: for a threshold below 2^32 - 1, when `Redirect` is invoked on
the wrong path with the counter equal to the threshold, the embedded `Rollback`
fires first: control goes to the old checkpoint, the flag becomes false, the
counter 0, `rollback_ctxt` is kept, and the only output is the rollback
message: no `Taken branch`, `Not taken branch`, `Redirecting` or `Executing
instruction` line is written for that branch. -/
theorem Redirect_preempted_by_Rollback (c : CONTEXT) (taken : Bool) (ta fa : ADDRINT)
    (s : State)
    (hon : s.executing_on_wrong_path = true)
    (heq : s.wrong_path_instructions_executed = s.wrong_path_resolution_count)
    (hT : s.wrong_path_resolution_count < 2 ^ 32 - 1) :
    (Rollback (CheckIfOnWrongPath s)).2 ≠ .returned ∧
    (Redirect c taken ta fa s).2 = .executeAt s.rollback_ctxt ∧
    (Redirect c taken ta fa s).1.executing_on_wrong_path = false ∧
    (Redirect c taken ta fa s).1.wrong_path_instructions_executed = 0 ∧
    (Redirect c taken ta fa s).1.rollback_ctxt = s.rollback_ctxt ∧
    (Redirect c taken ta fa s).1.out =
      s.out ++ rollbackMsg (PIN_GetContextReg s.rollback_ctxt .REG_INST_PTR)
        s.first_instr_addr ∧
    branchLines (Redirect c taken ta fa s).1.out = branchLines s.out ∧
    redirectLines (Redirect c taken ta fa s).1.out = redirectLines s.out ∧
    executingLines (Redirect c taken ta fa s).1.out = executingLines s.out := by
  have hfr := CheckIfOnWrongPath_frame s
  have hchk := CheckIfOnWrongPath_on s hon
  have hincr : UINT_incr s.wrong_path_instructions_executed =
      s.wrong_path_instructions_executed + 1 :=
    UINT_incr_of_lt _ (by unfold UINT_MOD; unfold UINT at *; omega)
  have hne : (Rollback (CheckIfOnWrongPath s)).2 ≠ .returned := by
    rw [Rollback_fired_iff, hchk]
    refine ⟨hon, ?_⟩
    show s.wrong_path_resolution_count < UINT_incr s.wrong_path_instructions_executed
    rw [hincr, heq]
    exact Nat.lt_succ_self _
  have hfi := (Rollback_fired_iff _).mp hne
  have hout : (Redirect c taken ta fa s).1.out =
      s.out ++ rollbackMsg (PIN_GetContextReg s.rollback_ctxt .REG_INST_PTR)
        s.first_instr_addr := by
    rw [Redirect_of_fired c taken ta fa s hne, Rollback_fire _ hfi.1 hfi.2]
    show (CheckIfOnWrongPath s).out ++ rollbackMsg
      (PIN_GetContextReg (CheckIfOnWrongPath s).rollback_ctxt .REG_INST_PTR)
      (CheckIfOnWrongPath s).first_instr_addr = _
    rw [hfr.2.2.2.2, hfr.2.1, hfr.2.2.1]
  have htgt := Redirect_fired_target c taken ta fa s hne
  refine ⟨hne, htgt.1, ?_, ?_, htgt.2, hout, ?_, ?_, ?_⟩
  · rw [Redirect_of_fired c taken ta fa s hne, Rollback_fire _ hfi.1 hfi.2]
  · rw [Redirect_of_fired c taken ta fa s hne, Rollback_fire _ hfi.1 hfi.2]
  · rw [hout]
    simp [branchLines, rollbackMsg, List.count_append, List.count_cons]
  · rw [hout]
    simp [redirectLines, rollbackMsg, List.count_append, List.count_cons]
  · rw [hout]
    simp [executingLines, rollbackMsg, List.count_append, List.count_cons]

/-- Witness for C17, amended: threshold 0 and a branch at the wrong-path target
0x1004 of the branch at 0x1000. -/
theorem Redirect_preempted_by_Rollback_witness :
    (Redirect exCtxt2 false 0x3000 0x1008 (exSpec 0)).2 = .executeAt (exSpec 0).rollback_ctxt ∧
    (Redirect exCtxt2 false 0x3000 0x1008 (exSpec 0)).1.executing_on_wrong_path = false ∧
    branchLines (Redirect exCtxt2 false 0x3000 0x1008 (exSpec 0)).1.out =
      branchLines (exSpec 0).out :=
  ⟨(Redirect_preempted_by_Rollback exCtxt2 false 0x3000 0x1008 (exSpec 0)
      (by decide) (by decide) (by decide)).2.1,
   (Redirect_preempted_by_Rollback exCtxt2 false 0x3000 0x1008 (exSpec 0)
      (by decide) (by decide) (by decide)).2.2.1,
   (Redirect_preempted_by_Rollback exCtxt2 false 0x3000 0x1008 (exSpec 0)
      (by decide) (by decide) (by decide)).2.2.2.2.2.2.1⟩

/-! ## The counter stays within the threshold -/

/-- After an instruction has been handled, from whatever state, the counter is
at most the threshold, and the threshold is as before. -/
theorem Step.apply_counter_le (st : Step) (s : State) (h : st.isInstr = true) :
    (st.apply s).wrong_path_instructions_executed ≤ (st.apply s).wrong_path_resolution_count ∧
    (st.apply s).wrong_path_resolution_count = s.wrong_path_resolution_count := by
  have hfr := CheckIfOnWrongPath_frame s
  have hfired : (Rollback (CheckIfOnWrongPath s)).2 ≠ .returned →
      (Rollback (CheckIfOnWrongPath s)).1.wrong_path_instructions_executed ≤
        (Rollback (CheckIfOnWrongPath s)).1.wrong_path_resolution_count ∧
      (Rollback (CheckIfOnWrongPath s)).1.wrong_path_resolution_count =
        s.wrong_path_resolution_count := by
    intro hne
    have hfi := (Rollback_fired_iff _).mp hne
    rw [Rollback_fire _ hfi.1 hfi.2]
    exact ⟨Nat.zero_le _, hfr.2.2.2.1⟩
  cases st with
  | checkIfOnWrongPath => simp [Step.isInstr] at h
  | rollback => simp [Step.isInstr] at h
  | recordInstrAddr a =>
    simp only [Step.apply]
    by_cases hc : (Rollback (CheckIfOnWrongPath s)).2 = .returned
    · rw [RecordInstrAddr_of_returned a s hc]
      have ht := RecordInstrAddr_tail_frame a (CheckIfOnWrongPath s)
      show (RecordInstrAddr_tail a (CheckIfOnWrongPath s)).wrong_path_instructions_executed ≤
          (RecordInstrAddr_tail a (CheckIfOnWrongPath s)).wrong_path_resolution_count ∧
        (RecordInstrAddr_tail a (CheckIfOnWrongPath s)).wrong_path_resolution_count = _
      rw [ht.2.2.1, ht.2.2.2, hfr.2.2.2.1]
      refine ⟨?_, rfl⟩
      rcases (Rollback_returned_iff _).mp hc with hoff | hle
      · rw [hfr.1] at hoff
        rw [CheckIfOnWrongPath_off s hoff]
        exact Nat.zero_le _
      · rw [hfr.2.2.2.1] at hle
        exact hle
    · rw [RecordInstrAddr_of_fired a s hc]
      exact hfired hc
  | redirect c t ta fa =>
    simp only [Step.apply]
    by_cases hc : (Rollback (CheckIfOnWrongPath s)).2 = .returned
    · have hst := Redirect_spec_state c t ta fa s hc
      rw [hst.2.1, hst.2.2.1]
      exact ⟨Nat.zero_le _, rfl⟩
    · rw [Redirect_of_fired c t ta fa s hc]
      exact hfired hc

theorem runSteps_counter_le (steps : List Step) (s : State)
    (h : ∀ st ∈ steps, st.isInstr = true)
    (hs : s.wrong_path_instructions_executed ≤ s.wrong_path_resolution_count) :
    (runSteps steps s).wrong_path_instructions_executed ≤
      (runSteps steps s).wrong_path_resolution_count ∧
    (runSteps steps s).wrong_path_resolution_count = s.wrong_path_resolution_count := by
  induction steps generalizing s with
  | nil => exact ⟨hs, rfl⟩
  | cons st rest ih =>
    have h1 := Step.apply_counter_le st s (h st (List.mem_cons_self _ _))
    have h2 := ih (st.apply s) (fun x hx => h x (List.mem_cons_of_mem _ hx)) h1.1
    rw [runSteps_cons]
    exact ⟨h2.1, h2.2.trans h1.2⟩

/-- C18: in every state reached from the state left by `main` by handling
instructions (`RecordInstrAddr` and `Redirect` calls), the counter is at most
the threshold; so for a threshold below 2^32 - 1 the increment made by
`CheckIfOnWrongPath` for the next instruction does not wrap: the counter plus
one is below 2^32 and is the new counter. -/
theorem counter_bounded_by_threshold (n : UINT) (c0 : CONTEXT) (steps : List Step)
    (h : ∀ st ∈ steps, st.isInstr = true) :
    (runSteps steps (main n c0)).wrong_path_instructions_executed ≤
      (runSteps steps (main n c0)).wrong_path_resolution_count ∧
    (runSteps steps (main n c0)).wrong_path_resolution_count = n ∧
    (n < 2 ^ 32 - 1 →
      (runSteps steps (main n c0)).wrong_path_instructions_executed + 1 < 2 ^ 32 ∧
      UINT_incr (runSteps steps (main n c0)).wrong_path_instructions_executed =
        (runSteps steps (main n c0)).wrong_path_instructions_executed + 1 ∧
      ((runSteps steps (main n c0)).executing_on_wrong_path = true →
        (CheckIfOnWrongPath (runSteps steps (main n c0))).wrong_path_instructions_executed =
          (runSteps steps (main n c0)).wrong_path_instructions_executed + 1)) := by
  have hinv := runSteps_counter_le steps (main n c0) h (Nat.zero_le _)
  have hT : (runSteps steps (main n c0)).wrong_path_resolution_count = n := hinv.2
  refine ⟨hinv.1, hT, ?_⟩
  intro hn
  have hle := hinv.1
  rw [hT] at hle
  have hlt : (runSteps steps (main n c0)).wrong_path_instructions_executed + 1 < 2 ^ 32 := by
    unfold UINT at *; omega
  have hincr := UINT_incr_of_lt _ (show _ + 1 < UINT_MOD from hlt)
  refine ⟨hlt, hincr, ?_⟩
  intro hf
  rw [CheckIfOnWrongPath_on _ hf]
  exact hincr

/-- Witness for C18: threshold 3, a redirected branch and two wrong-path
instructions. -/
theorem counter_bounded_by_threshold_witness :
    (runSteps [.redirect exCtxt true 0x2000 0x1004, .recordInstrAddr 0x1004,
        .recordInstrAddr 0x1008] (main 3 exCtxt0)).wrong_path_instructions_executed ≤
      (runSteps [.redirect exCtxt true 0x2000 0x1004, .recordInstrAddr 0x1004,
        .recordInstrAddr 0x1008] (main 3 exCtxt0)).wrong_path_resolution_count ∧
    (runSteps [.redirect exCtxt true 0x2000 0x1004, .recordInstrAddr 0x1004,
        .recordInstrAddr 0x1008] (main 3 exCtxt0)).wrong_path_instructions_executed + 1
      < 2 ^ 32 :=
  ⟨(counter_bounded_by_threshold 3 exCtxt0 [.redirect exCtxt true 0x2000 0x1004,
      .recordInstrAddr 0x1004, .recordInstrAddr 0x1008] (by decide)).1,
   ((counter_bounded_by_threshold 3 exCtxt0 [.redirect exCtxt true 0x2000 0x1004,
      .recordInstrAddr 0x1004, .recordInstrAddr 0x1008] (by decide)).2.2 (by decide)).1⟩

/-! ## Dispatch of the analysis routines -/

/-- C15: `Instruction` inserts exactly one analysis routine, `Redirect` if and
only if the instruction is control flow and has a fallthrough, `RecordInstrAddr`
otherwise; and whichever routine is called, it first applies
`CheckIfOnWrongPath`, then `Rollback`, once each: when `Rollback` fires nothing
else is done, and otherwise the rest of the routine (the trace line, and for
`Redirect` the branch logic after it) runs on the state they leave. -/
theorem Instruction_dispatch (ins : INS) (a : IARGS) (s : State) :
    (Instruction ins).length = 1 ∧
    (Instruction ins = [.Redirect] ↔
      (ins.INS_IsControlFlow = true ∧ ins.INS_HasFallThrough = true)) ∧
    (Instruction ins = [.RecordInstrAddr] ↔
      ¬ (ins.INS_IsControlFlow = true ∧ ins.INS_HasFallThrough = true)) ∧
    (∀ f ∈ Instruction ins, (Rollback (CheckIfOnWrongPath s)).2 ≠ .returned →
      f.call a s = Rollback (CheckIfOnWrongPath s)) ∧
    ((Rollback (CheckIfOnWrongPath s)).2 = .returned →
      AFUNPTR.RecordInstrAddr.call a s =
        (RecordInstrAddr_tail a.IARG_INST_PTR (Rollback (CheckIfOnWrongPath s)).1, .returned) ∧
      AFUNPTR.Redirect.call a s =
        Redirect_tail a.IARG_CONTEXT a.IARG_BRANCH_TAKEN a.IARG_BRANCH_TARGET_ADDR
          a.IARG_FALLTHROUGH_ADDR
          (RecordInstrAddr_tail (PIN_GetContextReg a.IARG_CONTEXT .REG_INST_PTR)
            (Rollback (CheckIfOnWrongPath s)).1)) := by
  refine ⟨?_, ?_, ?_, ?_, ?_⟩
  · unfold Instruction; split <;> rfl
  · unfold Instruction
    by_cases h1 : ins.INS_IsControlFlow = true <;> by_cases h2 : ins.INS_HasFallThrough = true <;>
      simp [h1, h2]
  · unfold Instruction
    by_cases h1 : ins.INS_IsControlFlow = true <;> by_cases h2 : ins.INS_HasFallThrough = true <;>
      simp [h1, h2]
  · intro f _ hne
    cases f with
    | Redirect => exact Redirect_of_fired _ _ _ _ s hne
    | RecordInstrAddr => exact RecordInstrAddr_of_fired _ s hne
  · intro hret
    have hno := Rollback_noop _ ((Rollback_returned_iff _).mp hret)
    rw [hno]
    exact ⟨RecordInstrAddr_of_returned _ s hret, Redirect_of_returned _ _ _ _ s hret⟩

/-- Witness for C15: a conditional branch gets `Redirect`, and on the state
left by `main` that call is the branch logic applied after the trace line. -/
theorem Instruction_dispatch_witness :
    Instruction ⟨true, true⟩ = [.Redirect] ∧
    AFUNPTR.Redirect.call ⟨exCtxt, true, 0x2000, 0x1004, 0x1000⟩ (main 0 exCtxt0) =
      Redirect_tail exCtxt true 0x2000 0x1004
        (RecordInstrAddr_tail 0x1000 (Rollback (CheckIfOnWrongPath (main 0 exCtxt0))).1) :=
  ⟨(Instruction_dispatch ⟨true, true⟩ ⟨exCtxt, true, 0x2000, 0x1004, 0x1000⟩
      (main 0 exCtxt0)).2.1.mpr ⟨rfl, rfl⟩,
   ((Instruction_dispatch ⟨true, true⟩ ⟨exCtxt, true, 0x2000, 0x1004, 0x1000⟩
      (main 0 exCtxt0)).2.2.2.2 (by decide)).2⟩

/-! ## The checkpoint is captured before it is used -/

theorem flag_stays_off (s : State) (hoff : s.executing_on_wrong_path = false) :
    (Rollback s).1.executing_on_wrong_path = false ∧
    (∀ addr, (RecordInstrAddr addr s).1.executing_on_wrong_path = false) := by
  constructor
  · rw [Rollback_noop s (Or.inl hoff)]
    exact hoff
  · intro addr
    rw [RecordInstrAddr_of_returned addr s (Rollback_returned_of_off s hoff)]
    show (RecordInstrAddr_tail addr (CheckIfOnWrongPath s)).executing_on_wrong_path = false
    rw [(RecordInstrAddr_tail_frame addr _).1, (CheckIfOnWrongPath_frame s).1]
    exact hoff

theorem Rollback_keeps_ctxt (s : State) : (Rollback s).1.rollback_ctxt = s.rollback_ctxt := by
  by_cases hc : (Rollback s).2 = .returned
  · rw [Rollback_noop s ((Rollback_returned_iff s).mp hc)]
  · have hfi := (Rollback_fired_iff s).mp hc
    rw [Rollback_fire s hfi.1 hfi.2]

theorem RecordInstrAddr_returned_iff (addr : ADDRINT) (s : State) :
    (RecordInstrAddr addr s).2 = .returned ↔ (Rollback (CheckIfOnWrongPath s)).2 = .returned := by
  constructor
  · intro h
    by_contra hne
    rw [RecordInstrAddr_of_fired addr s hne] at h
    exact hne h
  · intro h
    rw [RecordInstrAddr_of_returned addr s h]

/-- The invariant behind C16, for a run from any state: when nothing has been
captured the flag is false and `rollback_ctxt` is still its first content, and
what has been captured last is what `rollback_ctxt` holds. -/
theorem lastCaptured_inv (c0 : CONTEXT) (steps : List Step) (s : State) (g : Option CONTEXT)
    (h1 : g = none → s.executing_on_wrong_path = false ∧ s.rollback_ctxt = c0)
    (h2 : ∀ c, g = some c → s.rollback_ctxt = c) :
    (lastCaptured steps s g = none →
      (runSteps steps s).executing_on_wrong_path = false ∧
      (runSteps steps s).rollback_ctxt = c0) ∧
    (∀ c, lastCaptured steps s g = some c → (runSteps steps s).rollback_ctxt = c) := by
  induction steps generalizing s g with
  | nil => exact ⟨h1, h2⟩
  | cons st rest ih =>
    rw [runSteps_cons]
    unfold lastCaptured
    have keep : ∀ t : State, t.rollback_ctxt = s.rollback_ctxt →
        (s.executing_on_wrong_path = false → t.executing_on_wrong_path = false) →
        (g = none → t.executing_on_wrong_path = false ∧ t.rollback_ctxt = c0) ∧
        (∀ c, g = some c → t.rollback_ctxt = c) := by
      intro t hctx hflag
      exact ⟨fun hg => ⟨hflag (h1 hg).1, by rw [hctx]; exact (h1 hg).2⟩,
        fun c hg => by rw [hctx]; exact h2 c hg⟩
    cases st with
    | checkIfOnWrongPath =>
      have k := keep (CheckIfOnWrongPath s) (CheckIfOnWrongPath_frame s).2.1
        (fun h => by rw [(CheckIfOnWrongPath_frame s).1]; exact h)
      exact ih _ _ k.1 k.2
    | rollback =>
      have k := keep (Rollback s).1 (Rollback_keeps_ctxt s) (fun h => (flag_stays_off s h).1)
      exact ih _ _ k.1 k.2
    | recordInstrAddr a =>
      have k := keep (RecordInstrAddr a s).1 (RecordInstrAddr_ctxt a s).1
        (fun h => (flag_stays_off s h).2 a)
      exact ih _ _ k.1 k.2
    | redirect c t ta fa =>
      by_cases hret : (RecordInstrAddr (PIN_GetContextReg c .REG_INST_PTR) s).2 = .returned
      · have hst := Redirect_spec_state c t ta fa s ((RecordInstrAddr_returned_iff _ s).mp hret)
        simp only [hret, if_true]
        refine ih _ _ (fun hg => by simp at hg) ?_
        intro c2 hc2
        simp only [Option.some.injEq] at hc2
        rw [← hc2]
        exact hst.2.2.2
      · have hne : (Rollback (CheckIfOnWrongPath s)).2 ≠ .returned :=
          fun h => hret ((RecordInstrAddr_returned_iff _ s).mpr h)
        simp only [hret, if_false]
        have hfi := (Rollback_fired_iff _).mp hne
        have hflag : (Redirect c t ta fa s).1.executing_on_wrong_path = false := by
          rw [Redirect_of_fired c t ta fa s hne, Rollback_fire _ hfi.1 hfi.2]
        have k := keep (Redirect c t ta fa s).1 (Redirect_fired_target c t ta fa s hne).2
          (fun _ => hflag)
        exact ih _ _ k.1 k.2

/-- C16: along every run from the state left by `main`, where nothing has been
captured yet, the flag is true only after a `Redirect` has stored a context,
and `rollback_ctxt` then holds the context stored by the most recent `Redirect`
that got as far as storing one; so whenever `Rollback` fires, directly or
inside `RecordInstrAddr` or `Redirect`, it transfers control to that context.
As long as nothing has been captured the flag is false, `rollback_ctxt` is
untouched and `Rollback` returns. -/
theorem checkpoint_captured_before_use (n : UINT) (c0 : CONTEXT) (steps : List Step) :
    ((runSteps steps (main n c0)).executing_on_wrong_path = true →
      ∃ c, lastCaptured steps (main n c0) none = some c ∧
        (runSteps steps (main n c0)).rollback_ctxt = c) ∧
    (lastCaptured steps (main n c0) none = none →
      (runSteps steps (main n c0)).executing_on_wrong_path = false ∧
      (runSteps steps (main n c0)).rollback_ctxt = c0 ∧
      Rollback (runSteps steps (main n c0)) = (runSteps steps (main n c0), .returned)) ∧
    ((Rollback (runSteps steps (main n c0))).2 ≠ .returned →
      ∃ c, lastCaptured steps (main n c0) none = some c ∧
        (Rollback (runSteps steps (main n c0))).2 = .executeAt c) ∧
    (∀ addr, (RecordInstrAddr addr (runSteps steps (main n c0))).2 ≠ .returned →
      ∃ c, lastCaptured steps (main n c0) none = some c ∧
        (RecordInstrAddr addr (runSteps steps (main n c0))).2 = .executeAt c) ∧
    (∀ c1 taken ta fa,
      (Rollback (CheckIfOnWrongPath (runSteps steps (main n c0)))).2 ≠ .returned →
      ∃ c, lastCaptured steps (main n c0) none = some c ∧
        (Redirect c1 taken ta fa (runSteps steps (main n c0))).2 = .executeAt c) := by
  have hinv := lastCaptured_inv c0 steps (main n c0) none (fun _ => ⟨rfl, rfl⟩)
    (fun c hc => by simp at hc)
  have hon : (runSteps steps (main n c0)).executing_on_wrong_path = true →
      ∃ c, lastCaptured steps (main n c0) none = some c ∧
        (runSteps steps (main n c0)).rollback_ctxt = c := by
    intro hf
    cases hg : lastCaptured steps (main n c0) none with
    | none =>
      have := (hinv.1 hg).1
      rw [hf] at this
      exact absurd this (by decide)
    | some c => exact ⟨c, rfl, hinv.2 c hg⟩
  have hchk : (Rollback (CheckIfOnWrongPath (runSteps steps (main n c0)))).2 ≠ .returned →
      ∃ c, lastCaptured steps (main n c0) none = some c ∧
        (runSteps steps (main n c0)).rollback_ctxt = c := by
    intro hne
    have hfi := (Rollback_fired_iff _).mp hne
    rw [(CheckIfOnWrongPath_frame _).1] at hfi
    exact hon hfi.1
  refine ⟨hon, ?_, ?_, ?_, ?_⟩
  · intro hg
    exact ⟨(hinv.1 hg).1, (hinv.1 hg).2, Rollback_noop _ (Or.inl (hinv.1 hg).1)⟩
  · intro hne
    have hfi := (Rollback_fired_iff _).mp hne
    obtain ⟨c, hc, hctx⟩ := hon hfi.1
    refine ⟨c, hc, ?_⟩
    rw [Rollback_fire _ hfi.1 hfi.2, hctx]
  · intro addr hne
    have hne2 : (Rollback (CheckIfOnWrongPath (runSteps steps (main n c0)))).2 ≠ .returned :=
      fun h => hne ((RecordInstrAddr_returned_iff addr _).mpr h)
    obtain ⟨c, hc, hctx⟩ := hchk hne2
    refine ⟨c, hc, ?_⟩
    cases hctl : (RecordInstrAddr addr (runSteps steps (main n c0))).2 with
    | returned => exact absurd hctl hne
    | executeAt c2 => rw [(RecordInstrAddr_ctxt addr _).2.2 c2 hctl, hctx]
  · intro c1 taken ta fa hne
    obtain ⟨c, hc, hctx⟩ := hchk hne
    exact ⟨c, hc, by rw [(Redirect_fired_target c1 taken ta fa _ hne).1, hctx]⟩

/-- Witness for C16: with threshold 0, after the branch at 0x1000 has been
redirected the captured context is the one with instruction pointer 0x2000,
and the rollback of the next instruction goes there.  Before any branch
`rollback_ctxt` is untouched. -/
theorem checkpoint_captured_before_use_witness :
    lastCaptured [.redirect exCtxt true 0x2000 0x1004] (main 0 exCtxt0) none =
      some ⟨0x2000, [7, 8]⟩ ∧
    (RecordInstrAddr 0x1004
      (runSteps [.redirect exCtxt true 0x2000 0x1004] (main 0 exCtxt0))).2 =
      .executeAt ⟨0x2000, [7, 8]⟩ ∧
    (runSteps [.recordInstrAddr 0x1000] (main 0 exCtxt0)).rollback_ctxt = exCtxt0 := by
  have h0 : lastCaptured [.redirect exCtxt true 0x2000 0x1004] (main 0 exCtxt0) none =
      some ⟨0x2000, [7, 8]⟩ := by decide
  refine ⟨h0, ?_,
    ((checkpoint_captured_before_use 0 exCtxt0 [.recordInstrAddr 0x1000]).2.1
      (by decide)).2.1⟩
  obtain ⟨c, hc, h⟩ :=
    (checkpoint_captured_before_use 0 exCtxt0 [.redirect exCtxt true 0x2000 0x1004]).2.2.2.1
      0x1004 (by decide)
  rw [h0] at hc
  rw [h, ← Option.some.inj hc]

end PinRollbackTool
